import Mathlib

/-!
# Acoustic map generator — verification of the spec against the source

Shallow embedding of the acoustic field synthesis engine
(`src/app/lib/ISOModel.ts`, `src/app/acoustics/GradientFactory.ts`,
`src/app/acoustics/FacadeUtils.ts`, the `WaveEmitter`, `ColorMap` and
`AcousticCalculator` modules and the `useHeatmap` hooks).

JavaScript numbers are modelled by `JNum`: either NaN, ±Infinity, or a
finite rational.  Exact rational arithmetic replaces IEEE doubles (no
rounding is modelled); the transcendental library functions
(`Math.log10`, `Math.pow`, `Math.exp`, `Math.sqrt`) are replaced by
computable rational stand-ins that are exact where the source relies on
exact values (powers of ten, perfect squares, integer exponents) and
preserve sign/positivity everywhere, which is what the verified
properties depend on.
-/

/-- Fuel-based `Nat.log` body: structural recursion on the fuel lets
concrete values reduce by iota steps (`Nat.log` itself recurses by
well-foundedness, which concrete evaluation cannot unfold at depth). -/
def logAux (b : ℕ) : ℕ → ℕ → ℕ
  | 0, _ => 0
  | fuel + 1, n => if b ≤ n ∧ 1 < b then logAux b fuel (n / b) + 1 else 0

/-- With enough fuel, `logAux` is exactly `Nat.log`. -/
theorem logAux_eq (b : ℕ) (fuel : ℕ) : ∀ n, n ≤ fuel → logAux b fuel n = Nat.log b n := by
  induction fuel with
  | zero =>
      intro n hn
      have hn0 : n = 0 := Nat.le_zero.mp hn
      subst hn0
      rw [Nat.log, dif_neg (by omega)]
      rfl
  | succ fuel ih =>
      intro n hn
      rw [Nat.log]
      show (if b ≤ n ∧ 1 < b then logAux b fuel (n / b) + 1 else 0) = _
      by_cases h : b ≤ n ∧ 1 < b
      · have hlt : n / b < n := Nat.div_lt_self (by omega) h.2
        rw [if_pos h, dif_pos h, ih (n / b) (by omega)]
      · rw [if_neg h, dif_neg h]

/-- Evaluation-friendly `Nat.log`. -/
def logN (b n : ℕ) : ℕ := logAux b n n

theorem logN_eq (b n : ℕ) : logN b n = Nat.log b n := logAux_eq b n n le_rfl

/-- Fuel-based `Nat.clog` body (see `logAux`). -/
def clogAux (b : ℕ) : ℕ → ℕ → ℕ
  | 0, _ => 0
  | fuel + 1, n => if 1 < b ∧ 1 < n then clogAux b fuel ((n + b - 1) / b) + 1 else 0

/-- With enough fuel, `clogAux` is exactly `Nat.clog`. -/
theorem clogAux_eq (b : ℕ) (fuel : ℕ) : ∀ n, n ≤ fuel → clogAux b fuel n = Nat.clog b n := by
  induction fuel with
  | zero =>
      intro n hn
      have hn0 : n = 0 := Nat.le_zero.mp hn
      subst hn0
      rw [Nat.clog, dif_neg (by omega)]
      rfl
  | succ fuel ih =>
      intro n hn
      rw [Nat.clog]
      show (if 1 < b ∧ 1 < n then clogAux b fuel ((n + b - 1) / b) + 1 else 0) = _
      by_cases h : 1 < b ∧ 1 < n
      · have hlt : (n + b - 1) / b < n := Nat.add_pred_div_lt h.1 h.2
        rw [if_pos h, dif_pos h, ih _ (by omega)]
      · rw [if_neg h, dif_neg h]

/-- Evaluation-friendly `Nat.clog`. -/
def clogN (b n : ℕ) : ℕ := clogAux b n n

theorem clogN_eq (b n : ℕ) : clogN b n = Nat.clog b n := clogAux_eq b n n le_rfl

/-- Base-10 logarithm stand-in: the body of `Int.log 10` (see
`log10Q_eq`), which is the exact floor of the real `log10` on positive
rationals and agrees with it exactly on powers of ten. -/
def log10Q (q : ℚ) : ℚ :=
  ((if 1 ≤ q then (logN 10 ⌊q⌋₊ : ℤ) else -(clogN 10 ⌈q⁻¹⌉₊ : ℤ)) : ℤ)

theorem log10Q_eq (q : ℚ) : log10Q q = (Int.log 10 q : ℤ) := by
  unfold log10Q Int.log
  split
  · rw [logN_eq]
  · rw [clogN_eq]

/-- `Math.pow(10, q)` stand-in: exact on integer exponents, positive everywhere. -/
def pow10Q (q : ℚ) : ℚ := (10 : ℚ) ^ ⌊q⌋

/-- `Math.exp` stand-in: positive everywhere, maps `(-∞, 0]` into `(0, 1]`
like the real exponential (all exponential weights in the source are
applied to non-positive arguments). -/
def expQ (q : ℚ) : ℚ := if q ≤ 0 then 1 / (1 - q) else 1 + q

/-- Fuel-based integer square root (Heron iteration, the same step as
`Nat.sqrt.iter`): structural recursion on the fuel lets concrete values
reduce by iota steps, where `Nat.sqrt`'s own well-founded recursion
cannot be unfolded by evaluation. -/
def sqrtAux : ℕ → ℕ → ℕ → ℕ
  | 0, _, g => g
  | fuel + 1, n, g =>
      let next := (g + n / g) / 2
      if next < g then sqrtAux fuel n next else g

/-- With enough fuel, `sqrtAux` is exactly `Nat.sqrt.iter`. -/
theorem sqrtAux_eq (fuel : ℕ) : ∀ g n, g ≤ fuel → sqrtAux fuel n g = Nat.sqrt.iter n g := by
  induction fuel with
  | zero =>
      intro g n hg
      have hg0 : g = 0 := Nat.le_zero.mp hg
      subst hg0
      rw [Nat.sqrt.iter]
      simp [sqrtAux]
  | succ fuel ih =>
      intro g n hg
      rw [Nat.sqrt.iter]
      show (let next := (g + n / g) / 2; if next < g then sqrtAux fuel n next else g) = _
      by_cases hlt : (g + n / g) / 2 < g
      · rw [if_pos hlt, dif_pos hlt]
        exact ih _ n (by omega)
      · rw [if_neg hlt, dif_neg hlt]

/-- Evaluation-friendly `Nat.sqrt`. -/
def sqrtN (n : ℕ) : ℕ := if n ≤ 1 then n else sqrtAux n n (n / 2)

theorem sqrtN_eq (n : ℕ) : sqrtN n = Nat.sqrt n := by
  unfold sqrtN Nat.sqrt
  split
  · rfl
  · exact sqrtAux_eq n (n / 2) n (Nat.div_le_self n 2)

/-- `Math.sqrt` stand-in: exact on squares of rationals, non-negative,
positive on positive inputs. -/
def sqrtQ (q : ℚ) : ℚ := if q ≤ 0 then 0 else (sqrtN (q.num.toNat * q.den) : ℚ) / (q.den : ℚ)

/-- `Math.pow(a, b)` stand-in for the general case: exact for integer
exponents (the only exponents the verified paths rely on, e.g.
`Math.pow(dot, Math.max(1, cut))` with `cut ≤ 1`); non-integer exponents
(only `0.95` in the hot-spot pass) fall back to the base itself, which
preserves sign and the unit interval. -/
def powQ (a b : ℚ) : ℚ := if b.den = 1 then a ^ b.num else a

theorem pow10Q_pos (q : ℚ) : 0 < pow10Q q := by
  unfold pow10Q; exact zpow_pos (by norm_num) _

theorem expQ_pos (q : ℚ) : 0 < expQ q := by
  unfold expQ
  split
  · have h : (0:ℚ) < 1 - q := by linarith
    positivity
  · rename_i h
    push_neg at h
    linarith

theorem sqrtQ_nonneg (q : ℚ) : 0 ≤ sqrtQ q := by
  unfold sqrtQ
  split
  · exact le_refl 0
  · positivity

theorem sqrtQ_pos (q : ℚ) (h : 0 < q) : 0 < sqrtQ q := by
  unfold sqrtQ
  rw [if_neg (by linarith), sqrtN_eq]
  have hnum : 0 < q.num := Rat.num_pos.mpr h
  have hden : 0 < q.den := q.pos
  have h1 : 0 < q.num.toNat * q.den := by
    apply Nat.mul_pos
    · omega
    · exact hden
  have h2 : 0 < Nat.sqrt (q.num.toNat * q.den) := Nat.sqrt_pos.mpr h1
  have hd : (0:ℚ) < (q.den : ℚ) := by exact_mod_cast hden
  apply div_pos
  · exact_mod_cast h2
  · exact hd

/-- A JavaScript number: NaN, +Infinity, -Infinity, or a finite value
(modelled as an exact rational). -/
inductive JNum where
  | nan : JNum
  | inf : JNum
  | ninf : JNum
  | fin : ℚ → JNum
  deriving DecidableEq, Repr

namespace JNum

/-- `Number.isFinite`. -/
def isFinite : JNum → Bool
  | fin _ => true
  | _ => false

/-- The rational value of a finite `JNum` (0 for the non-finite cases;
only used under an `isFinite` guard). -/
def toQ : JNum → ℚ
  | fin q => q
  | _ => 0

/-- JavaScript truthiness of a number: `0` and `NaN` are falsy. -/
def truthy : JNum → Bool
  | fin q => decide (q ≠ 0)
  | nan => false
  | _ => true

/-- `a || b` on numbers (JavaScript logical-or fallback). -/
def orElse (a b : JNum) : JNum := if a.truthy then a else b

def neg : JNum → JNum
  | nan => nan
  | inf => ninf
  | ninf => inf
  | fin q => fin (-q)

def add : JNum → JNum → JNum
  | nan, _ => nan
  | _, nan => nan
  | inf, ninf => nan
  | ninf, inf => nan
  | inf, _ => inf
  | _, inf => inf
  | ninf, _ => ninf
  | _, ninf => ninf
  | fin a, fin b => fin (a + b)

def sub (a b : JNum) : JNum := add a (neg b)

def mul : JNum → JNum → JNum
  | nan, _ => nan
  | _, nan => nan
  | inf, inf => inf
  | inf, ninf => ninf
  | ninf, inf => ninf
  | ninf, ninf => inf
  | inf, fin q => if q = 0 then nan else if 0 < q then inf else ninf
  | fin q, inf => if q = 0 then nan else if 0 < q then inf else ninf
  | ninf, fin q => if q = 0 then nan else if 0 < q then ninf else inf
  | fin q, ninf => if q = 0 then nan else if 0 < q then ninf else inf
  | fin a, fin b => fin (a * b)

def div : JNum → JNum → JNum
  | nan, _ => nan
  | _, nan => nan
  | inf, inf => nan
  | inf, ninf => nan
  | ninf, inf => nan
  | ninf, ninf => nan
  | inf, fin q => if 0 ≤ q then inf else ninf
  | ninf, fin q => if 0 ≤ q then ninf else inf
  | fin _, inf => fin 0
  | fin _, ninf => fin 0
  | fin a, fin b =>
      if b = 0 then (if a = 0 then nan else if 0 < a then inf else ninf)
      else fin (a / b)

/-- JavaScript `a < b` (false whenever an operand is NaN). -/
def ltb : JNum → JNum → Bool
  | nan, _ => false
  | _, nan => false
  | inf, _ => false
  | _, inf => true
  | ninf, ninf => false
  | ninf, _ => true
  | _, ninf => false
  | fin a, fin b => decide (a < b)

/-- JavaScript `a <= b` (false whenever an operand is NaN). -/
def leb : JNum → JNum → Bool
  | nan, _ => false
  | _, nan => false
  | ninf, _ => true
  | _, ninf => false
  | _, inf => true
  | inf, _ => false
  | fin a, fin b => decide (a ≤ b)

def gtb (a b : JNum) : Bool := ltb b a
def geb (a b : JNum) : Bool := leb b a

/-- `Math.max` (NaN-propagating). -/
def max : JNum → JNum → JNum
  | nan, _ => nan
  | _, nan => nan
  | inf, _ => inf
  | _, inf => inf
  | ninf, b => b
  | a, ninf => a
  | fin a, fin b => fin (Max.max a b)

/-- `Math.min` (NaN-propagating). -/
def min : JNum → JNum → JNum
  | nan, _ => nan
  | _, nan => nan
  | ninf, _ => ninf
  | _, ninf => ninf
  | inf, b => b
  | a, inf => a
  | fin a, fin b => fin (Min.min a b)

/-- `Math.abs`. -/
def abs : JNum → JNum
  | nan => nan
  | inf => inf
  | ninf => inf
  | fin q => fin |q|

/-- `Math.hypot` on two arguments: an infinite operand dominates even NaN. -/
def hypot : JNum → JNum → JNum
  | inf, _ => inf
  | ninf, _ => inf
  | _, inf => inf
  | _, ninf => inf
  | nan, _ => nan
  | _, nan => nan
  | fin a, fin b => fin (sqrtQ (a * a + b * b))

/-- `Math.log10`. -/
def log10 : JNum → JNum
  | nan => nan
  | inf => inf
  | ninf => nan
  | fin q => if 0 < q then fin (log10Q q) else if q = 0 then ninf else nan

/-- `Math.pow(10, ·)`. -/
def pow10 : JNum → JNum
  | nan => nan
  | inf => inf
  | ninf => fin 0
  | fin q => fin (pow10Q q)

/-- `Math.exp`. -/
def exp : JNum → JNum
  | nan => nan
  | inf => inf
  | ninf => fin 0
  | fin q => fin (expQ q)

/-- `Math.pow(a, b)` restricted to the shapes the source uses
(finite base, finite exponent; NaN otherwise is a safe default). -/
def pow : JNum → JNum → JNum
  | fin a, fin b => fin (powQ a b)
  | _, _ => nan

/-- `Math.ceil`, as a natural sample count via `Int.toNat` (the source only
uses it inside `Math.max(1, Math.ceil(len / spacing))`). -/
def ceilN : JNum → ℕ
  | fin q => ⌈q⌉.toNat
  | inf => 0
  | ninf => 0
  | nan => 0

@[simp] theorem add_fin_fin (a b : ℚ) : add (fin a) (fin b) = fin (a + b) := rfl
@[simp] theorem sub_fin_fin (a b : ℚ) : sub (fin a) (fin b) = fin (a + -b) := rfl
@[simp] theorem mul_fin_fin (a b : ℚ) : mul (fin a) (fin b) = fin (a * b) := rfl
@[simp] theorem isFinite_fin (q : ℚ) : isFinite (fin q) = true := rfl
@[simp] theorem isFinite_nan : isFinite nan = false := rfl
@[simp] theorem isFinite_inf : isFinite inf = false := rfl
@[simp] theorem isFinite_ninf : isFinite ninf = false := rfl
@[simp] theorem max_fin_fin (a b : ℚ) : max (fin a) (fin b) = fin (Max.max a b) := rfl
@[simp] theorem min_fin_fin (a b : ℚ) : min (fin a) (fin b) = fin (Min.min a b) := rfl
@[simp] theorem toQ_fin (q : ℚ) : toQ (fin q) = q := rfl

@[simp] theorem add_nan_left (b : JNum) : add nan b = nan := by
  cases b <;> rfl

@[simp] theorem add_nan_right (a : JNum) : add a nan = nan := by
  cases a <;> rfl

@[simp] theorem max_nan_left (b : JNum) : max nan b = nan := by
  cases b <;> rfl

@[simp] theorem max_nan_right (a : JNum) : max a nan = nan := by
  cases a <;> rfl

@[simp] theorem ltb_nan_left (b : JNum) : ltb nan b = false := by
  cases b <;> rfl

@[simp] theorem ltb_nan_right (a : JNum) : ltb a nan = false := by
  cases a <;> rfl

theorem isFinite_div_fin_fin (a b : ℚ) (hb : b ≠ 0) :
    div (fin a) (fin b) = fin (a / b) := by
  unfold div
  simp [hb]

theorem log10_fin_pos (q : ℚ) (h : 0 < q) : log10 (fin q) = fin (log10Q q) := by
  unfold log10
  simp [h]

theorem pow10_fin (q : ℚ) : pow10 (fin q) = fin (pow10Q q) := rfl

end JNum

open JNum

/-! ## Shared geometry helpers -/

/-- JavaScript `a || b` on finite numbers (`0` falls through to `b`). -/
def qOr (a b : ℚ) : ℚ := if a = 0 then b else a

/-- `Math.hypot` on finite operands. -/
def hypotQ (a b : ℚ) : ℚ := sqrtQ (a * a + b * b)

/-- `Math.ceil` producing a sample count. -/
def ceilQ (q : ℚ) : ℕ := ⌈q⌉.toNat

/-- One iteration step of the ray-casting loop shared by
`GradientFactory.pointInPolygon`, the inline test in
`AcousticCalculator.compute` and the local copies in `ColorMap`:
`((yi > y) !== (yj > y)) && (x < (xj - xi) * (y - yi) / ((yj - yi) || 1e-12) + xi)`. -/
def rayCastStep (x y : ℚ) (p q : ℚ × ℚ) : Bool :=
  (decide (p.2 > y) != decide (q.2 > y)) &&
    decide (x < (q.1 - p.1) * (y - p.2) / qOr (q.2 - p.2) (1 / 1000000000000) + p.1)

/-- The ray-casting loop body (`for (i = 0, j = n-1; i < n; j = i++)`),
without the length guard. -/
def rayCastLoop (x y : ℚ) (poly : List (ℚ × ℚ)) : Bool :=
  (List.range poly.length).foldl
    (fun inside i =>
      let p := poly.getD i (0, 0)
      let q := poly.getD (if i = 0 then poly.length - 1 else i - 1) (0, 0)
      if rayCastStep x y p q then !inside else inside)
    false

namespace GradientFactory

/-- `pointInPolygon` (GradientFactory.ts): ray casting with the `< 3` guard. -/
def pointInPolygon (x y : ℚ) (poly : List (ℚ × ℚ)) : Bool :=
  if poly.length < 3 then false else rayCastLoop x y poly

end GradientFactory

/-- A facade segment `{ name, p1, p2 }` (plan-view points in meters). -/
structure Seg where
  name : String
  p1 : ℚ × ℚ
  p2 : ℚ × ℚ
  deriving DecidableEq, Repr

/-- Return value of `getPerpAlong` (page.tsx): `perp` is `-Infinity` for a
degenerate segment, hence carried as a `JNum`. -/
structure PerpAlong where
  perp : JNum
  along : ℚ
  t : ℚ
  segLen : ℚ
  tx : ℚ
  tz : ℚ
  nx : ℚ
  nz : ℚ
  deriving Repr

/-- `getPerpAlong(px, pz, a, b)` (page.tsx): signed perpendicular offset from
the (clamped) projection onto the segment, using the raw rotated tangent as
normal. -/
def getPerpAlong (px pz : ℚ) (a b : ℚ × ℚ) : PerpAlong :=
  let dx := b.1 - a.1
  let dz := b.2 - a.2
  let segLen := hypotQ dx dz
  if segLen < 1 / 100000000 then ⟨JNum.ninf, 0, 0, 0, 0, 0, 0, 0⟩
  else
    let tx := dx / segLen
    let tz := dz / segLen
    let nx := -tz
    let nz := tx
    let vecX := px - a.1
    let vecZ := pz - a.2
    let tRaw := vecX * tx + vecZ * tz
    let clamped := Max.max 0 (Min.min segLen tRaw)
    let projX := a.1 + tx * clamped
    let projZ := a.2 + tz * clamped
    let offX := px - projX
    let offZ := pz - projZ
    ⟨JNum.fin (offX * nx + offZ * nz), clamped, clamped / segLen, segLen, tx, tz, nx, nz⟩

/-! ## ISOModel (src/app/lib/ISOModel.ts) -/

namespace ISOModel

/-- A facade element `{ area, R }`; both fields are JavaScript numbers. -/
structure FacadeElement where
  area : JNum
  R : JNum
  deriving DecidableEq, Repr

/-- `computeFacadeRePrime` (ISOModel.ts:10-19):
`Sf = max(1e-6, Σ max(0, area))`, non-finite `R` replaced by 30, result
`-10 * log10(max(1e-12, sum / Sf))`. -/
def computeFacadeRePrime (elements : List FacadeElement) : JNum :=
  let Sf := JNum.max (JNum.fin (1 / 1000000))
    (elements.foldl (fun s e => JNum.add s (JNum.max (JNum.fin 0) e.area)) (JNum.fin 0))
  let sum := elements.foldl
    (fun s e =>
      let Sj := JNum.max (JNum.fin 0) e.area
      let Rj := if e.R.isFinite then e.R else JNum.fin 30
      JNum.add s (JNum.mul Sj (JNum.pow10 (JNum.div (JNum.neg Rj) (JNum.fin 10)))))
    (JNum.fin 0)
  JNum.mul (JNum.fin (-10))
    (JNum.log10 (JNum.max (JNum.fin (1 / 1000000000000)) (JNum.div sum Sf)))

/-- `aGeo` (ISOModel.ts:26-29): `8 + 20 * log10(max(0.01, d))`. -/
def aGeo (distanceM : JNum) : JNum :=
  let r := JNum.max (JNum.fin (1 / 100)) distanceM
  JNum.add (JNum.fin 8) (JNum.mul (JNum.fin 20) (JNum.log10 r))

/-- `aAtmospheric` (ISOModel.ts:35-37): constant 0 placeholder. -/
def aAtmospheric (_distanceM : JNum) : JNum := JNum.fin 0

/-- `computeLwRoomFromLpIn` (ISOModel.ts:44-47). -/
def computeLwRoomFromLpIn (lpIn aeq : JNum) : JNum :=
  let a := JNum.max (JNum.fin (1 / 1000000)) aeq
  JNum.add lpIn (JNum.mul (JNum.fin 10) (JNum.log10 a))

/-- Options record of `computeLpOutAtPoint` (ISOModel.ts:53-60). -/
structure LpOutOpts where
  lwRoom : JNum
  rePrime : JNum
  dfRoom : Option ℚ := none
  dfOut : Option ℚ := none
  distanceM : JNum
  atmospheric : Option JNum := none

/-- `computeLpOutAtPoint` (ISOModel.ts:53-66):
`Lw_room - Re' - Df_room - Df_out - A_geo(d) - A_atm` with `Df_room ?? 6`,
`Df_out ?? 0`, and non-finite atmospheric replaced by `aAtmospheric`. -/
def computeLpOutAtPoint (o : LpOutOpts) : JNum :=
  let dfRoom := JNum.fin (o.dfRoom.getD 6)
  let dfOut := JNum.fin (o.dfOut.getD 0)
  let aGeoV := aGeo o.distanceM
  let atm0 := o.atmospheric.getD (JNum.fin 0)
  let aAtm := if atm0.isFinite then atm0 else aAtmospheric o.distanceM
  JNum.sub (JNum.sub (JNum.sub (JNum.sub (JNum.sub o.lwRoom o.rePrime) dfRoom) dfOut) aGeoV) aAtm

/-- `SourceSimple` (ISOModel.ts:74): position, level, optional unit normal. -/
structure SourceSimple where
  x : ℚ
  z : ℚ
  lw : JNum
  n : Option (ℚ × ℚ) := none
  deriving Repr

/-- Options record of `computeLpFromSource` (ISOModel.ts:90-98). -/
structure LpFromSourceOpts where
  rePrime : Option JNum := none
  lwIsRoom : Option Bool := none
  dbPerMeter : Option JNum := none
  directivityCut : Option JNum := none
  dfRoom : Option ℚ := none
  dfOut : Option ℚ := none
  atmospheric : Option JNum := none

/-- Result record of `computeLpFromSource`: `{ Lp_db, energyLinear, distanceM }`. -/
structure LpFromSourceResult where
  lpDb : JNum
  energyLinear : JNum
  distanceM : ℚ
  deriving Repr

/-- `computeLpFromSource` (ISOModel.ts:86-150): propagation from one point
source with optional facade loss, per-meter attenuation and cosine
directivity (floored at `1e-4`). -/
def computeLpFromSource (source : SourceSimple) (receptorX receptorZ : ℚ)
    (opts : LpFromSourceOpts) : LpFromSourceResult :=
  let rePrime := opts.rePrime.getD (JNum.fin 0)
  let lwIsRoom := opts.lwIsRoom.getD true
  let dbPerMeter :=
    if (opts.dbPerMeter.getD JNum.nan).isFinite then opts.dbPerMeter.getD JNum.nan
    else JNum.fin (1 / 2)
  let directivityCut :=
    if (opts.directivityCut.getD JNum.nan).isFinite then opts.directivityCut.getD JNum.nan
    else JNum.fin 1
  let vx := receptorX - source.x
  let vz := receptorZ - source.z
  let dist := hypotQ vx vz
  let lwOutDb := if lwIsRoom then JNum.sub source.lw rePrime else source.lw
  let lpBase := computeLpOutAtPoint
    { lwRoom := lwOutDb, rePrime := JNum.fin 0, dfRoom := opts.dfRoom, dfOut := opts.dfOut,
      distanceM := JNum.fin (Max.max (1 / 100) dist), atmospheric := opts.atmospheric }
  let atmosExtra := JNum.mul dbPerMeter (JNum.fin (Max.max 0 dist))
  let lpAfterAtm := JNum.sub lpBase atmosExtra
  let directivityWeight : JNum :=
    match source.n with
    | none => JNum.fin 1
    | some (snx, snz) =>
        let nlen := qOr (hypotQ snx snz) 1
        let nx := snx / nlen
        let nz := snz / nlen
        let rlen := qOr (hypotQ vx vz) 1
        let rx := vx / rlen
        let rz := vz / rlen
        let dot := Max.max 0 (Min.min 1 (nx * rx + nz * rz))
        let w := JNum.pow (JNum.fin dot) (JNum.max (JNum.fin 1) directivityCut)
        JNum.max (JNum.fin (1 / 10000)) w
  let e := JNum.mul (JNum.pow10 (JNum.div lpAfterAtm (JNum.fin 10))) directivityWeight
  { lpDb := JNum.mul (JNum.fin 10) (JNum.log10 e), energyLinear := e, distanceM := dist }

/-- Options record of `computeGridLpFromSources` (ISOModel.ts:170-176). -/
structure GridLpOptions where
  maxDist : Option ℚ := none
  dbPerMeter : Option JNum := none
  directivityCut : Option JNum := none
  lwIsRoom : Option Bool := none

/-- One cell of `computeGridLpFromSources` (ISOModel.ts:166-213): sum of
linear energies of the sources within `maxDist`, as dB, `-Infinity` when no
source contributes. -/
def computeGridLpFromSourcesCell (sources : List SourceSimple) (xs ys : List ℚ)
    (options : GridLpOptions) (j i : ℕ) : JNum :=
  let maxDist := options.maxDist.getD 50
  let dbPerMeter? : Option JNum :=
    if ((options.dbPerMeter.getD (JNum.fin (1 / 2))).isFinite) then options.dbPerMeter
    else some (JNum.fin (1 / 2))
  let directivityCut := options.directivityCut.getD (JNum.fin 1)
  let lwIsRoom := options.lwIsRoom.getD true
  let rx := xs.getD i 0
  let rz := ys.getD j 0
  let totalE := sources.foldl
    (fun acc s =>
      let vx := rx - s.x
      let vz := rz - s.z
      let dist := hypotQ vx vz
      if dist > maxDist then acc
      else
        let res := computeLpFromSource s rx rz
          { rePrime := some (JNum.fin 0), lwIsRoom := some lwIsRoom,
            dbPerMeter := dbPerMeter?, directivityCut := some directivityCut }
        if !res.energyLinear.isFinite || JNum.leb res.energyLinear (JNum.fin 0) then acc
        else JNum.add acc res.energyLinear)
    (JNum.fin 0)
  if JNum.gtb totalE (JNum.fin 0) then JNum.mul (JNum.fin 10) (JNum.log10 totalE)
  else JNum.ninf

end ISOModel

/-! ## FacadeUtils (src/app/acoustics/FacadeUtils.ts) -/

namespace FacadeUtils

/-- `buildFacadeElementsForSegment` (FacadeUtils.ts:11-19): one element with
`area = max(0.0001, segLen * max(0.1, buildingHeight || 3))` and
`R = Rmap[name] ?? 30`. -/
def buildFacadeElementsForSegment (seg : Seg) (buildingHeight : JNum)
    (rmap : Option (List (String × ℚ))) : List ISOModel.FacadeElement :=
  let segLen := hypotQ (seg.p2.1 - seg.p1.1) (seg.p2.2 - seg.p1.2)
  let height := JNum.max (JNum.fin (1 / 10)) (JNum.orElse buildingHeight (JNum.fin 3))
  let area := JNum.max (JNum.fin (1 / 10000)) (JNum.mul (JNum.fin segLen) height)
  let rval : ℚ :=
    match rmap with
    | some m => (m.lookup seg.name).getD 30
    | none => 30
  [{ area := area, R := JNum.fin rval }]

/-- `buildAllFacades` (FacadeUtils.ts:25-29) as a name-indexed lookup; a
duplicate name keeps the last segment's elements, matching object-key
assignment order. -/
def buildAllFacades (segments : List Seg) (buildingHeight : JNum)
    (rmap : Option (List (String × ℚ))) (name : String) : Option (List ISOModel.FacadeElement) :=
  (segments.reverse.find? (fun s => s.name = name)).map
    (fun s => buildFacadeElementsForSegment s buildingHeight rmap)

end FacadeUtils

/-! ## WaveEmitter (src/unnamed/part_003) -/

namespace WaveEmitter

/-- A sampled point emitter `{ x, z, nx, nz, Lw }`. -/
structure WSource where
  x : ℚ
  z : ℚ
  nx : ℚ
  nz : ℚ
  lw : ℚ
  deriving DecidableEq, Repr

/-- The canonical per-index segment key `segment-i`. -/
def segKey (i : ℕ) : String := "segment-" ++ toString i

/-- Default sound-level map synthesised when none is supplied
(part_003:17-24): `segment-0 ↦ 100`, every other index `↦ 0`. -/
def defaultLwMap (n : ℕ) : List (String × JNum) :=
  (List.range n).map (fun i => (segKey i, if i = 0 then JNum.fin 100 else JNum.fin 0))

/-- Map normalisation (part_003:25-29): every non-finite value becomes 0. -/
def normalizeLwMap (m : List (String × JNum)) : List (String × ℚ) :=
  m.map (fun p => (p.1, if p.2.isFinite then p.2.toQ else 0))

/-- Lw resolution for one edge (part_003:89-101 and 130-143): look the key up
in the map (`Number(v) || 0`), else fall back to the directional key derived
from the dominant normal axis, else 0. -/
def lwForEdge (lwMap : List (String × ℚ)) (key : String) (nx nz : ℚ) : ℚ :=
  match lwMap.lookup key with
  | some v => qOr v 0
  | none =>
      let dirKey := if |nx| > |nz| then (if nx > 0 then "east" else "west")
                    else (if nz > 0 then "north" else "south")
      match lwMap.lookup dirKey with
      | some v => qOr v 0
      | none => 0

/-- Sampling of one edge at sub-segment centers (part_003:76-108 and
114-151; the two branches of the source share this body verbatim):
`lenEdge = hypot || 1`, centroid-oriented outward normal, and
`max(1, ceil(lenEdge / spacing))` samples at `(i + 0.5) / samples`. -/
def sourcesForEdge (center : ℚ × ℚ) (lwMap : List (String × ℚ))
    (sampleSpacing outwardOffset : ℚ) (a b : ℚ × ℚ) (key : String) : List WSource :=
  let vx := b.1 - a.1
  let vz := b.2 - a.2
  let lenEdge := qOr (hypotQ vx vz) 1
  let ux := vx / lenEdge
  let uz := vz / lenEdge
  let nx0 := -uz
  let nz0 := ux
  let mx := (a.1 + b.1) / 2
  let mz := (a.2 + b.2) / 2
  let flip := (mx - center.1) * nx0 + (mz - center.2) * nz0 < 0
  let nx1 := if flip then -nx0 else nx0
  let nz1 := if flip then -nz0 else nz0
  let nlen := qOr (hypotQ nx1 nz1) 1
  let nx := nx1 / nlen
  let nz := nz1 / nlen
  let samples := Nat.max 1 (ceilQ (lenEdge / sampleSpacing))
  let lw := lwForEdge lwMap key nx nz
  (List.range samples).map (fun (sIdx : ℕ) =>
    let t := ((sIdx : ℚ) + 1 / 2) / (samples : ℚ)
    { x := a.1 + ux * lenEdge * t + nx * outwardOffset,
      z := a.2 + uz * lenEdge * t + nz * outwardOffset,
      nx := nx, nz := nz, lw := lw })

/-- `WaveEmitter.generateSources` (part_003:8-154).  When `mainSegments` is
non-empty each facade is sampled under its own name; otherwise the
perimeter edges are sampled under the index keys (the nearest-main-segment
lookup always misses there because `mainSegments` is empty on that path). -/
def generateSources (polyLoop : List (ℚ × ℚ)) (mainSegments : List Seg)
    (sampleSpacing outwardOffset : ℚ) (lwMap? : Option (List (String × JNum))) :
    List WSource :=
  if polyLoop.length = 0 ∧ mainSegments.length = 0 then []
  else
    let lwMap : List (String × ℚ) :=
      match lwMap? with
      | none => normalizeLwMap (defaultLwMap
          (if mainSegments.length ≠ 0 then mainSegments.length else polyLoop.length))
      | some m => normalizeLwMap m
    let center : ℚ × ℚ :=
      if polyLoop.length ≠ 0 then
        (((polyLoop.map Prod.fst).sum) / (polyLoop.length : ℚ),
         ((polyLoop.map Prod.snd).sum) / (polyLoop.length : ℚ))
      else if mainSegments.length ≠ 0 then
        (((mainSegments.map (fun s => (s.p1.1 + s.p2.1) / 2)).sum) / (mainSegments.length : ℚ),
         ((mainSegments.map (fun s => (s.p1.2 + s.p2.2) / 2)).sum) / (mainSegments.length : ℚ))
      else (0, 0)
    if mainSegments.length ≠ 0 then
      mainSegments.flatMap (fun seg =>
        sourcesForEdge center lwMap sampleSpacing outwardOffset seg.p1 seg.p2 seg.name)
    else
      (List.range polyLoop.length).flatMap (fun k =>
        let a := polyLoop.getD k (0, 0)
        let b := polyLoop.getD ((k + 1) % polyLoop.length) (0, 0)
        sourcesForEdge center lwMap sampleSpacing outwardOffset a b (segKey k))

end WaveEmitter

/-! ## GradientFactory (src/app/acoustics/GradientFactory.ts) -/

/-- A visual color band. -/
inductive ColorBand where
  | red
  | yellow
  | green
  | blue
  deriving DecidableEq, Repr

/-- Per-sample power normalisation mode (`"per_sample" | "per_meter" | "none"`). -/
inductive NormalizeMode where
  | perSample
  | perMeter
  | nrmNone
  deriving DecidableEq, Repr

namespace GradientFactory

/-- The accumulation step of `computeFacadeRePrime` (GradientFactory.ts:63-70):
skip an element with non-positive `Number(area) || 0` or non-finite `R`,
else add its area and its weighted transmission term. -/
def gfAccStep (p : JNum × JNum) (el : ISOModel.FacadeElement) : JNum × JNum :=
  let s := JNum.orElse el.area (JNum.fin 0)
  let r := el.R
  if JNum.leb s (JNum.fin 0) || !r.isFinite then p
  else (JNum.add p.1 s,
        JNum.add p.2 (JNum.mul s (JNum.pow10 (JNum.div (JNum.neg r) (JNum.fin 10)))))

/-- `computeFacadeRePrime` (GradientFactory.ts:57-75): elements with
non-positive area (`Number(area) || 0`) or non-finite `R` are skipped;
`NaN` when the list is empty or nothing valid accumulates. -/
def computeFacadeRePrime (elements : List ISOModel.FacadeElement)
    (totalArea : Option ℚ) : JNum :=
  if elements.length = 0 then JNum.nan
  else
    let acc := elements.foldl gfAccStep (JNum.fin 0, JNum.fin 0)
    let ssum := acc.1
    let weighted := acc.2
    let sFachada :=
      match totalArea with
      | some t => if 0 < t then JNum.fin t else ssum
      | none => ssum
    if JNum.leb sFachada (JNum.fin 0) || JNum.leb weighted (JNum.fin 0) then JNum.nan
    else JNum.mul (JNum.fin (-10)) (JNum.log10 (JNum.div weighted sFachada))

/-- The tunables record of `generateSegmentBandEnergy`
(GradientFactory.ts:9-32); only the fields the body reads are modelled
(`debugEmit`/`__emitPoints` only fill a side-channel debug array and cannot
change the returned energy, so they are omitted). -/
structure GradientParams where
  cellSize : Option ℚ := none
  sourceSpacing : Option ℚ := none
  redMaxDist : Option ℚ := none
  redFalloffScale : Option ℚ := none
  redSampleSpacing : Option ℚ := none
  lateralTaper : Option ℚ := none
  colorSpread : Option (ColorBand → ℚ) := none
  propagationBandMaxDist : Option (ColorBand → Option ℚ) := none
  normalize : Option NormalizeMode := none
  dotThreshold : Option ℚ := none
  lateralSpreadFactor : Option ℚ := none
  invertNormals : Option Bool := none
  poly : Option (List (ℚ × ℚ)) := none
  center : Option (ℚ × ℚ) := none

/-- One cell of the red-band path of `generateSegmentBandEnergy`
(GradientFactory.ts:138-218): dense resampling, perpendicular-distance
propagation, narrow red and wider yellow Gaussian weights with a soft
falloff beyond `redMaxDist`. -/
def redBandCell (seg : Seg) (lwRoom rePrime : JNum) (xs ys : List ℚ)
    (params : GradientParams) (j i : ℕ) : JNum :=
  let ax := seg.p1.1
  let az := seg.p1.2
  let bx := seg.p2.1
  let bz := seg.p2.2
  let vx := bx - ax
  let vz := bz - az
  let segLen := hypotQ vx vz
  let tx := vx / segLen
  let tz := vz / segLen
  let nx := -tz
  let nz := tx
  let redSampleSpacing := Max.max (1 / 20) (params.redSampleSpacing.getD (3 / 25))
  let nRed := Nat.max 1 (Nat.min 2048 (ceilQ (segLen / redSampleSpacing)))
  let sampleLenRed := segLen / (nRed : ℚ)
  let lwPerSampleDbRed : JNum :=
    match params.normalize.getD NormalizeMode.perMeter with
    | NormalizeMode.nrmNone => lwRoom
    | _ => JNum.mul (JNum.fin 10)
        (JNum.log10 (JNum.mul
          (JNum.div (JNum.pow10 (JNum.div lwRoom (JNum.fin 10)))
            (JNum.fin (Max.max (1 / 1000000000000) segLen)))
          (JNum.fin sampleLenRed)))
  let maxRed := params.redMaxDist.getD 2
  let fallScale := Max.max (1 / 10) (params.redFalloffScale.getD (6 / 5))
  let dotT := params.dotThreshold.getD (-1)
  let rx := xs.getD i 0
  let rz := ys.getD j 0
  (List.range nRed).foldl
    (fun acc (s : ℕ) =>
      let frac := ((s : ℚ) + 1 / 2) / (nRed : ℚ)
      let sx := ax + vx * frac
      let sz := az + vz * frac
      let vrx := rx - sx
      let vrz := rz - sz
      let rnorm := hypotQ vrx vrz
      if rnorm < 1 / 1000000000 then acc
      else
        let perp := vrx * nx + vrz * nz
        if perp ≤ 0 then acc
        else
          let dot := (vrx * nx + vrz * nz) / rnorm
          if dot ≤ dotT then acc
          else
            let distancePerp := Max.max (1 / 100) |perp|
            let lp := ISOModel.computeLpOutAtPoint
              { lwRoom := lwPerSampleDbRed, rePrime := rePrime, dfRoom := some 6,
                dfOut := some 0, distanceM := JNum.fin distancePerp,
                atmospheric := some (JNum.fin 0) }
            if !lp.isFinite then acc
            else
              let sigmaPerpRed := Max.max (1 / 4) (Max.max (maxRed * (3 / 5)) (segLen * (3 / 25)))
              let wPerpRed := expQ (-(perp * perp) / (2 * sigmaPerpRed * sigmaPerpRed))
              let wRed := wPerpRed * 1
              let sigmaPerpYellow := Max.max (3 / 5) (Max.max (maxRed * (6 / 5)) (segLen * (1 / 4)))
              let wPerpYellow := expQ (-(perp * perp) / (2 * sigmaPerpYellow * sigmaPerpYellow))
              let wYellow := wPerpYellow * (11 / 20)
              let fall := if perp > maxRed then expQ (-(perp - maxRed) / fallScale) else 1
              let linearBase := JNum.pow10 (JNum.div lp (JNum.fin 10))
              JNum.add
                (JNum.add acc (JNum.mul linearBase (JNum.fin (Max.max 0 (wRed * fall)))))
                (JNum.mul linearBase (JNum.fin (Max.max 0 (wYellow * fall * (3 / 4))))))
    (JNum.fin 0)

/-- One cell of the linear-band path of `generateSegmentBandEnergy`
(GradientFactory.ts:233-262): per-sample ISO level with an isotropic
Gaussian lateral weight and an exponential longitudinal falloff folded into
the dB domain. -/
def linearBandCell (seg : Seg) (band : ColorBand) (lwRoom rePrime : JNum)
    (xs ys : List ℚ) (params : GradientParams) (j i : ℕ) : JNum :=
  let ax := seg.p1.1
  let az := seg.p1.2
  let bx := seg.p2.1
  let bz := seg.p2.2
  let vx := bx - ax
  let vz := bz - az
  let segLen := hypotQ vx vz
  let tx := vx / segLen
  let tz := vz / segLen
  let nx := -tz
  let nz := tx
  let dotThreshold := params.dotThreshold.getD (-1)
  let sampleSpacing := params.sourceSpacing.getD
    (Max.max (1 / 4) ((params.cellSize.getD 1) * (1 / 2)))
  let nSamples := Nat.max 1 (Nat.min 256 (ceilQ (segLen / sampleSpacing)))
  let sampleLen := segLen / (nSamples : ℚ)
  let lwPerSampleDb : JNum :=
    match params.normalize.getD NormalizeMode.perMeter with
    | NormalizeMode.nrmNone => lwRoom
    | _ => JNum.mul (JNum.fin 10)
        (JNum.log10 (JNum.mul
          (JNum.div (JNum.pow10 (JNum.div lwRoom (JNum.fin 10)))
            (JNum.fin (Max.max (1 / 1000000000000) segLen)))
          (JNum.fin sampleLen)))
  let colorSpread : ColorBand → ℚ := params.colorSpread.getD
    (fun b => match b with
      | ColorBand.red => 6 / 5
      | ColorBand.yellow => 2
      | ColorBand.green => 5 / 2
      | ColorBand.blue => 3)
  let bandMax : ℚ :=
    match params.propagationBandMaxDist with
    | some f => (f band).getD (match band with
        | ColorBand.yellow => 6
        | ColorBand.green => 12
        | _ => 18)
    | none => (match band with
        | ColorBand.yellow => 6
        | ColorBand.green => 12
        | _ => 18)
  let rx := xs.getD i 0
  let rz := ys.getD j 0
  (List.range nSamples).foldl
    (fun acc (s : ℕ) =>
      let frac := ((s : ℚ) + 1 / 2) / (nSamples : ℚ)
      let sx := ax + vx * frac
      let sz := az + vz * frac
      let vrx := rx - sx
      let vrz := rz - sz
      let rnorm := hypotQ vrx vrz
      if rnorm > 1 / 1000000 ∧ (vrx * nx + vrz * nz) / rnorm ≤ dotThreshold then acc
      else
        let lp := ISOModel.computeLpOutAtPoint
          { lwRoom := lwPerSampleDb, rePrime := rePrime, dfRoom := some 6, dfOut := some 0,
            distanceM := JNum.fin (Max.max (1 / 100) rnorm), atmospheric := some (JNum.fin 0) }
        if !lp.isFinite then acc
        else
          let spread := colorSpread band
          let lateralSigma := Max.max (3 / 10) spread
          let lateralWeight := expQ (-(rnorm * rnorm) / (2 * lateralSigma * lateralSigma))
          let longAtt := expQ (-rnorm / Max.max (1 / 10) (bandMax * (6 / 5)))
          let lpAdj := JNum.add lp (JNum.mul (JNum.fin 10)
            (JNum.log10 (JNum.fin (lateralWeight * longAtt + 1 / 1000000000000))))
          let e := JNum.pow10 (JNum.div lpAdj (JNum.fin 10))
          JNum.add acc e)
    (JNum.fin 0)

/-- One cell of `generateSegmentBandEnergy` (GradientFactory.ts:88-267):
zero for degenerate segments (`segLen <= 1e-9`), else the red path or the
linear band path. -/
def generateSegmentBandEnergyCell (seg : Seg) (band : ColorBand)
    (lwRoom rePrime : JNum) (xs ys : List ℚ) (params : GradientParams) (j i : ℕ) : JNum :=
  let segLen := hypotQ (seg.p2.1 - seg.p1.1) (seg.p2.2 - seg.p1.2)
  if segLen ≤ 1 / 1000000000 then JNum.fin 0
  else
    match band with
    | ColorBand.red => redBandCell seg lwRoom rePrime xs ys params j i
    | _ => linearBandCell seg band lwRoom rePrime xs ys params j i

/-- `generateSegmentBandEnergy` as the full `[h][w]` matrix. -/
def generateSegmentBandEnergy (seg : Seg) (band : ColorBand)
    (lwRoom rePrime : JNum) (xs ys : List ℚ) (params : GradientParams) :
    List (List JNum) :=
  (List.range ys.length).map (fun j =>
    (List.range xs.length).map (fun i =>
      generateSegmentBandEnergyCell seg band lwRoom rePrime xs ys params j i))

end GradientFactory

/-! ## ColorMap (src/unnamed/part_001) -/

/-- A `[h][w]` matrix of JavaScript numbers, as a total cell function. -/
def MatFun : Type := ℕ → ℕ → JNum

/-- Clamp an integer tap position to `[0, n-1]`
(`Math.min(n - 1, Math.max(0, v))`, the clamp-to-edge border rule). -/
def clampIdx (n : ℕ) (v : ℤ) : ℕ := (Min.min ((n : ℤ) - 1) (Max.max 0 v)).toNat

namespace ColorMap

/-- The unnormalised 1D Gaussian tap at offset `o` (`exp(-(i*i)/(2*sigma*sigma))`). -/
def kernelRaw (sigma : ℚ) (o : ℤ) : ℚ := expQ (-((o : ℚ) * (o : ℚ)) / (2 * sigma * sigma))

/-- Sum of all raw taps of a radius-`r` kernel. -/
def kernelSum (r : ℕ) (sigma : ℚ) : ℚ :=
  (List.range (2 * r + 1)).foldl (fun s (k : ℕ) => s + kernelRaw sigma ((k : ℤ) - (r : ℤ))) 0

/-- The normalised 1D Gaussian kernel tap. -/
def kernel (r : ℕ) (sigma : ℚ) (o : ℤ) : ℚ := kernelRaw sigma o / kernelSum r sigma

/-- `gaussianBlurMatrix` (part_001:209-255): plain separable convolution
with clamp-to-edge borders, `sigma = max(0.01, radius / 2)`; identity for
`radius <= 0` or an empty matrix. -/
def gaussianBlurMatrix (src : MatFun) (h w : ℕ) (radius : ℚ) : MatFun :=
  if radius ≤ 0 ∨ h = 0 ∨ w = 0 then src
  else
    let sigma := Max.max (1 / 100) (radius / 2)
    let r := ceilQ radius
    let temp : MatFun := fun y x =>
      (List.range (2 * r + 1)).foldl
        (fun acc (k : ℕ) =>
          let o := (k : ℤ) - (r : ℤ)
          let sx := clampIdx w ((x : ℤ) + o)
          JNum.add acc (JNum.mul (src y sx) (JNum.fin (kernel r sigma o))))
        (JNum.fin 0)
    fun y x =>
      (List.range (2 * r + 1)).foldl
        (fun acc (k : ℕ) =>
          let o := (k : ℤ) - (r : ℤ)
          let sy := clampIdx h ((y : ℤ) + o)
          JNum.add acc (JNum.mul (temp sy x) (JNum.fin (kernel r sigma o))))
        (JNum.fin 0)

/-- Mask interpretation mode of `gaussianBlurMatrixMasked`
(`'source' | 'receive' | 'both'`). -/
inductive MaskMode where
  | source
  | receive
  | both
  deriving DecidableEq, Repr

/-- Emitter-side mask interpretation (part_001:313-316): `invert` flips
the mask, `'receive'` mode allows every emitter. -/
def srcAllowedAt (mask : ℕ → ℕ → Bool) (invert : Bool) (mode : MaskMode)
    (y sx : ℕ) : Bool :=
  let a0 := mask y sx
  let a1 := if invert then !a0 else a0
  if mode = MaskMode.receive then true else a1

/-- Receiver-side mask interpretation (part_001:332-337): `'source'` mode
allows every receiver. -/
def destAllowedAt (mask : ℕ → ℕ → Bool) (invert : Bool) (mode : MaskMode)
    (y x : ℕ) : Bool :=
  let a0 := mask y x
  let a1 := if invert then !a0 else a0
  if mode = MaskMode.source then true else a1

/-- One horizontal tap of the masked blur (part_001:310-321): a disallowed
emitter contributes neither value nor weight. -/
def hPassStep (src : MatFun) (mask : ℕ → ℕ → Bool) (invert : Bool)
    (mode : MaskMode) (w r : ℕ) (sigma : ℚ) (y x : ℕ)
    (p : JNum × ℚ) (k : ℕ) : JNum × ℚ :=
  let o := (k : ℤ) - (r : ℤ)
  let sx := clampIdx w ((x : ℤ) + o)
  if !srcAllowedAt mask invert mode y sx then p
  else
    let kv := kernel r sigma o
    (JNum.add p.1 (JNum.mul (src y sx) (JNum.fin kv)), p.2 + kv)

/-- The horizontal pass of the masked blur: accumulated value and valid
weight (part_001:305-325). -/
def hPassM (src : MatFun) (mask : ℕ → ℕ → Bool) (invert : Bool)
    (mode : MaskMode) (w r : ℕ) (sigma : ℚ) (y x : ℕ) : JNum × ℚ :=
  (List.range (2 * r + 1)).foldl (hPassStep src mask invert mode w r sigma y x)
    (JNum.fin 0, 0)

/-- One vertical tap of the masked blur (part_001:343-350). -/
def vPassStep (hp : ℕ → ℕ → JNum × ℚ) (h r : ℕ) (sigma : ℚ) (x y : ℕ)
    (p : JNum × ℚ) (k : ℕ) : JNum × ℚ :=
  let o := (k : ℤ) - (r : ℤ)
  let sy := clampIdx h ((y : ℤ) + o)
  let kv := kernel r sigma o
  (JNum.add p.1 (JNum.mul (hp sy x).1 (JNum.fin kv)), p.2 + (hp sy x).2 * kv)

/-- `gaussianBlurMatrixMasked` (part_001:269-356): weight-renormalising
separable convolution; the mask filters emitters, receivers or both
according to `mode`, disallowed receivers and zero-weight cells keep their
original value. -/
def gaussianBlurMatrixMasked (src : MatFun) (h w : ℕ) (radius : ℚ)
    (mask : ℕ → ℕ → Bool) (invert : Bool := false)
    (mode : MaskMode := MaskMode.source) : MatFun :=
  if radius ≤ 0 ∨ h = 0 ∨ w = 0 then src
  else
    let sigma := Max.max (1 / 100) (radius / 2)
    let r := ceilQ radius
    fun y x =>
      if !destAllowedAt mask invert mode y x
          ∧ (mode = MaskMode.receive ∨ mode = MaskMode.both) then src y x
      else
        let acc := (List.range (2 * r + 1)).foldl
          (vPassStep (hPassM src mask invert mode w r sigma) h r sigma x y)
          (JNum.fin 0, 0)
        if 0 < acc.2 then JNum.div acc.1 (JNum.fin acc.2) else src y x

/-- A raw input segment of `generateRedHeatmapFromFacade` (name optional). -/
structure RawSeg where
  name : Option String
  p1 : ℚ × ℚ
  p2 : ℚ × ℚ
  deriving Repr

/-- Options of `generateRedHeatmapFromFacade` (part_001:520-529). -/
structure RedHeatmapOpts where
  sampleSpacing : Option ℚ := none
  outwardOffset : Option ℚ := none
  redMaxDist : Option ℚ := none
  yellowMaxDist : Option ℚ := none
  dbPerMeter : Option ℚ := none
  redWeight : Option ℚ := none
  yellowWeight : Option ℚ := none
  applyYellowBlur : Option ℚ := none

/-- Local point-in-polygon copy used by `generateRedHeatmapFromFacade`
(part_001:564-574); identical to `GradientFactory.pointInPolygon`. -/
def pointInPolyLocal (x z : ℚ) (poly : List (ℚ × ℚ)) : Bool :=
  if poly.length < 3 then false else rayCastLoop x z poly

/-- `isCellInsidePoly` (part_001:576-585): a cell is treated as inside when
any of its four corners is inside the polygon. -/
def isCellInsidePoly (cx cz halfX halfZ : ℚ) (poly : List (ℚ × ℚ)) : Bool :=
  pointInPolyLocal (cx - halfX) (cz - halfZ) poly ||
  pointInPolyLocal (cx - halfX) (cz + halfZ) poly ||
  pointInPolyLocal (cx + halfX) (cz - halfZ) poly ||
  pointInPolyLocal (cx + halfX) (cz + halfZ) poly

/-- The name-defaulted segments (`segment-${i}` when no name is given). -/
def segmentsWithNames (segments : List RawSeg) : List Seg :=
  segments.enum.map (fun p => ⟨p.2.name.getD (WaveEmitter.segKey p.1), p.2.p1, p.2.p2⟩)

/-- The point emitters feeding both dB maps (part_001:554-555). -/
def heatmapSources (segments : List RawSeg) (perimeter : List (ℚ × ℚ))
    (lwMap? : Option (List (String × JNum))) (sampleSpacing outwardOffset : ℚ) :
    List ISOModel.SourceSimple :=
  (WaveEmitter.generateSources perimeter (segmentsWithNames segments)
      sampleSpacing outwardOffset lwMap?).map
    (fun s => { x := s.x, z := s.z, lw := JNum.fin s.lw, n := some (s.nx, s.nz) })

/-- The pre-blur red/yellow linear-energy pair of one cell
(part_001:591-623): zero when a cell corner is inside the perimeter or no
facade faces the cell, else `10^(dB/10)` under the per-band perpendicular
caps. -/
def linearPairCell (gridX gridY : List ℚ) (segments : List RawSeg)
    (perimeter : List (ℚ × ℚ)) (lwMap? : Option (List (String × JNum)))
    (o : RedHeatmapOpts) (j i : ℕ) : JNum × JNum :=
  let redMaxDist := o.redMaxDist.getD 2
  let yellowMaxDist := o.yellowMaxDist.getD (Max.max 12 (redMaxDist * 8))
  let sampleSpacing := o.sampleSpacing.getD (1 / 4)
  let outwardOffset := o.outwardOffset.getD (1 / 50)
  let dbPerMeter := o.dbPerMeter.getD (1 / 2)
  let segs := segmentsWithNames segments
  let sources := heatmapSources segments perimeter lwMap? sampleSpacing outwardOffset
  let cellHalfX := if 1 < gridX.length then |gridX.getD 1 0 - gridX.getD 0 0| * (1 / 2) else 1 / 2
  let cellHalfY := if 1 < gridY.length then |gridY.getD 1 0 - gridY.getD 0 0| * (1 / 2) else 1 / 2
  let px := gridX.getD i 0
  let pz := gridY.getD j 0
  if isCellInsidePoly px pz cellHalfX cellHalfY perimeter then (JNum.fin 0, JNum.fin 0)
  else
    let bestPerp := segs.foldl
      (fun best seg =>
        let p := (getPerpAlong px pz seg.p1 seg.p2).perp
        if JNum.gtb p best then p else best)
      JNum.ninf
    if !JNum.gtb bestPerp (JNum.fin 0) then (JNum.fin 0, JNum.fin 0)
    else
      let rv := ISOModel.computeGridLpFromSourcesCell sources gridX gridY
        { maxDist := some redMaxDist, dbPerMeter := some (JNum.fin dbPerMeter),
          directivityCut := some (JNum.fin 1), lwIsRoom := some true } j i
      let yv := ISOModel.computeGridLpFromSourcesCell sources gridX gridY
        { maxDist := some yellowMaxDist, dbPerMeter := some (JNum.fin dbPerMeter),
          directivityCut := some (JNum.fin (4 / 5)), lwIsRoom := some true } j i
      ((if JNum.leb bestPerp (JNum.fin redMaxDist) ∧ JNum.gtb rv JNum.ninf
        then JNum.pow10 (JNum.div rv (JNum.fin 10)) else JNum.fin 0),
       (if JNum.leb bestPerp (JNum.fin yellowMaxDist) ∧ JNum.gtb yv JNum.ninf
        then JNum.pow10 (JNum.div yv (JNum.fin 10)) else JNum.fin 0))

/-- One cell of `generateRedHeatmapFromFacade` (part_001:514-643): weighted
linear combination of the red map and the (optionally blurred) yellow map,
`NaN` when the combined energy is not positive. -/
def generateRedHeatmapFromFacadeCell (gridX gridY : List ℚ)
    (segments : List RawSeg) (perimeter : List (ℚ × ℚ))
    (lwMap? : Option (List (String × JNum))) (o : RedHeatmapOpts) (j i : ℕ) : JNum :=
  let redWeight := o.redWeight.getD 1
  let yellowWeight := o.yellowWeight.getD 1
  let applyYellowBlur := o.applyYellowBlur.getD 12
  let w := gridX.length
  let h := gridY.length
  let redLinear : MatFun := fun j i =>
    (linearPairCell gridX gridY segments perimeter lwMap? o j i).1
  let yellowLinear0 : MatFun := fun j i =>
    (linearPairCell gridX gridY segments perimeter lwMap? o j i).2
  let yellowLinear :=
    if 0 < applyYellowBlur then gaussianBlurMatrix yellowLinear0 h w applyYellowBlur
    else yellowLinear0
  let rE := redLinear j i
  let yE := yellowLinear j i
  let combinedE := JNum.add (JNum.mul (JNum.fin redWeight) rE)
    (JNum.mul (JNum.fin yellowWeight) yE)
  if JNum.gtb combinedE (JNum.fin 0) then JNum.mul (JNum.fin 10) (JNum.log10 combinedE)
  else JNum.nan

/-- `generateRedHeatmapFromFacade` as the full `[h][w]` matrix. -/
def generateRedHeatmapFromFacade (gridX gridY : List ℚ)
    (segments : List RawSeg) (perimeter : List (ℚ × ℚ))
    (lwMap? : Option (List (String × JNum))) (o : RedHeatmapOpts) :
    List (List JNum) :=
  (List.range gridY.length).map (fun j =>
    (List.range gridX.length).map (fun i =>
      generateRedHeatmapFromFacadeCell gridX gridY segments perimeter lwMap? o j i))

end ColorMap

/-! ## GaussianSmoother (imported by the calculators; implementation not in src/) -/

namespace GaussianSmoother

/-- One mask-aware accumulation step: a finite neighbour contributes its
value and weight, a non-finite neighbour contributes nothing to either. -/
def maskedTap (p : ℚ × ℚ) (v : JNum) (kv : ℚ) : ℚ × ℚ :=
  if v.isFinite then (p.1 + v.toQ * kv, p.2 + kv) else p

/-- Horizontal mask-aware pass (clamp-to-edge). -/
def maskedPassH (g : MatFun) (w r : ℕ) (sigma : ℚ) : MatFun := fun y x =>
  if !(g y x).isFinite then JNum.nan
  else
    let acc := (List.range (2 * r + 1)).foldl
      (fun p (kk : ℕ) =>
        let o := (kk : ℤ) - (r : ℤ)
        maskedTap p (g y (clampIdx w ((x : ℤ) + o))) (ColorMap.kernelRaw sigma o))
      (0, 0)
    if 0 < acc.2 then JNum.fin (acc.1 / acc.2) else g y x

/-- Vertical mask-aware pass (clamp-to-edge). -/
def maskedPassV (g : MatFun) (h r : ℕ) (sigma : ℚ) : MatFun := fun y x =>
  if !(g y x).isFinite then JNum.nan
  else
    let acc := (List.range (2 * r + 1)).foldl
      (fun p (kk : ℕ) =>
        let o := (kk : ℤ) - (r : ℤ)
        maskedTap p (g (clampIdx h ((y : ℤ) + o)) x) (ColorMap.kernelRaw sigma o))
      (0, 0)
    if 0 < acc.2 then JNum.fin (acc.1 / acc.2) else g y x

/-- Modelled from the spec: the repository imports `GaussianSmoother` from
`./GaussianSmoother`, whose implementation file is not under `src/`; this
definition follows §4.5 "Spatial Smoothing Filter" of the spec: separable
Gaussian convolution (horizontal then vertical pass), kernel size forced
odd, `sigma` independent of size, clamp-to-edge borders, and the masking
rule — a non-finite cell is never smoothed and remains NaN, non-finite
neighbours are excluded from both the weighted sum and the
weight-normalisation denominator, and a valid cell with zero valid-weight
neighbours keeps its original value. -/
def radiusOf (size : ℚ) : ℕ :=
  let k0 := (⌊size⌋).toNat
  let k := if k0 % 2 = 0 then k0 + 1 else k0
  (k - 1) / 2

def apply (g : MatFun) (h w : ℕ) (size sigma : ℚ) : MatFun :=
  if radiusOf size = 0 ∨ h = 0 ∨ w = 0 then g
  else maskedPassV (maskedPassH g w (radiusOf size) sigma) h (radiusOf size) sigma

theorem maskedPassH_nan (g : MatFun) (w r : ℕ) (sigma : ℚ) (y x : ℕ)
    (hg : g y x = JNum.nan) : maskedPassH g w r sigma y x = JNum.nan := by
  unfold maskedPassH
  simp [hg, JNum.isFinite]

theorem maskedPassV_nan (g : MatFun) (h r : ℕ) (sigma : ℚ) (y x : ℕ)
    (hg : g y x = JNum.nan) : maskedPassV g h r sigma y x = JNum.nan := by
  unfold maskedPassV
  simp [hg, JNum.isFinite]

/-- The smoother never turns a NaN cell into data. -/
theorem apply_preserves_nan (g : MatFun) (h w : ℕ) (size sigma : ℚ) (j i : ℕ)
    (hg : g j i = JNum.nan) : apply g h w size sigma j i = JNum.nan := by
  unfold apply
  split
  · exact hg
  · exact maskedPassV_nan _ _ _ _ _ _ (maskedPassH_nan _ _ _ _ _ _ hg)

end GaussianSmoother

/-! ## AcousticCalculator (src/unnamed/part_010) -/

namespace AcousticCalculator

/-- `edgeTaperWeight` (part_010:13-25). -/
def edgeTaperWeight (pos segLen taper : ℚ) : ℚ :=
  if segLen ≤ 0 then 1
  else
    let taperLen := Max.max 0 (Min.min (segLen * taper) (segLen / 2))
    if taperLen = 0 then 1
    else if pos < taperLen then pos / taperLen
    else if pos > segLen - taperLen then (segLen - pos) / taperLen
    else 1

/-- The `colorOverlay` parameter bag read by `compute`
(duck-typed `any` in the source; only the fields the body reads are
modelled, `debugEmit`/`__emitPoints` only fill a debug side channel). -/
structure OverlayParams where
  hotBoost : Option ℚ := none
  redThreshold : Option ℚ := none
  yellowThreshold : Option ℚ := none
  redMaxDist : Option ℚ := none
  redFalloffScale : Option ℚ := none
  lateralTaper : Option ℚ := none
  colorSpread : Option (ColorBand → ℚ) := none
  propagationBandMaxDist : Option (ColorBand → Option ℚ) := none
  normalize : Option NormalizeMode := none
  redSampleSpacing : Option ℚ := none
  dotThreshold : Option ℚ := none
  overlaySmoothSize : Option ℚ := none
  overlaySmoothSigma : Option ℚ := none
  hotSegment : Option String := none
  blueRadius : Option ℚ := none

/-- `cfg.params` of `compute` (part_010:35-51; the unused
`attenuation`/`spread`/`colorAttenuationFactor` fields are omitted). -/
structure ComputeParams where
  preSmoothSize : Option ℚ := none
  preSmoothSigma : Option ℚ := none
  finalSmoothSize : Option ℚ := none
  finalSmoothSigma : Option ℚ := none
  cellSize : Option ℚ := none
  sourceSpacing : Option ℚ := none
  dfRoom : Option ℚ := none
  dfOut : Option ℚ := none
  rmap : Option (List (String × ℚ)) := none
  lpInMap : Option (List (String × ℚ)) := none
  invertNormals : Option Bool := none
  colorOverlay : Option OverlayParams := none
  normalize : Option NormalizeMode := none

/-- `ComputeCfg` (part_010:27-52) plus the `buildingHeight` field the body
reads via `(cfg as any).buildingHeight ?? 10`. -/
structure ComputeCfg where
  areaSize : ℚ
  resolution : ℚ
  buildingHeight : Option ℚ := none
  poly : Option (List (ℚ × ℚ)) := none
  main : Option (List Seg) := none
  lw : List (String × JNum) := []
  params : Option ComputeParams := none

/-- The result record `{ x, y, z, min, max, poly }`; `z` cells are
`number | null` (`Option ℚ`). -/
structure ComputeResult where
  x : List ℚ
  y : List ℚ
  z : List (List (Option ℚ))
  min : JNum
  max : JNum
  poly : List (ℚ × ℚ)
  deriving Repr

/-- Grid axis construction (part_010:100-117): either `cellSize` steps or
`resolution` evenly-spaced samples, at least 3 per axis. -/
def gridAxes (cfg : ComputeCfg) : List ℚ :=
  let area := cfg.areaSize
  let halfArea := area / 2
  match cfg.params.bind (·.cellSize) with
  | some step =>
      if 0 < step then
        let n := Nat.max 3 ((⌊area / step⌋ + 1).toNat)
        (List.range n).map (fun (i : ℕ) => -halfArea + (i : ℚ) * step)
      else
        let resArg := Nat.max 3 (⌊cfg.resolution⌋).toNat
        (List.range resArg).map (fun (i : ℕ) => -halfArea + ((i : ℚ) / ((resArg : ℚ) - 1)) * area)
  | none =>
      let resArg := Nat.max 3 (⌊cfg.resolution⌋).toNat
      (List.range resArg).map (fun (i : ℕ) => -halfArea + ((i : ℚ) / ((resArg : ℚ) - 1)) * area)

/-- The number of samples per axis (`res = xs.length`). -/
def gridN (cfg : ComputeCfg) : ℕ := (gridAxes cfg).length

/-- The segment list (`cfg.main ?? []`). -/
def mainList (cfg : ComputeCfg) : List Seg := cfg.main.getD []

/-- `facadeMap` (part_010:122). -/
def facadeMap (cfg : ComputeCfg) (name : String) : Option (List ISOModel.FacadeElement) :=
  FacadeUtils.buildAllFacades (mainList cfg) (JNum.fin (cfg.buildingHeight.getD 10))
    (cfg.params.bind (·.rmap)) name

/-- `RePrimeMap[segName] ?? 30` (part_010:125-129, 180, 219). -/
def rePrimeLookup (cfg : ComputeCfg) (name : String) : JNum :=
  if (mainList cfg).any (fun s => s.name = name) then
    ISOModel.computeFacadeRePrime ((facadeMap cfg name).getD [])
  else JNum.fin 30

/-- Perimeter centroid (part_010:132-136). -/
def centroid (cfg : ComputeCfg) : ℚ × ℚ :=
  match cfg.poly with
  | some p =>
      if p.length ≠ 0 then
        (((p.map Prod.fst).sum) / (p.length : ℚ), ((p.map Prod.snd).sum) / (p.length : ℚ))
      else (0, 0)
  | none => (0, 0)

/-- Base ISO field of one cell (part_010:140-193): NaN inside the perimeter
or with no segment, else `computeLpOutAtPoint` against the nearest segment
with the resolved `Lw_room` (explicit map, else `Lp_in` conversion, else a
nominal 60 dB). -/
def baseCell (cfg : ComputeCfg) (j i : ℕ) : JNum :=
  let xs := gridAxes cfg
  let px := xs.getD i 0
  let pz := xs.getD j 0
  let interior :=
    match cfg.poly with
    | some p => if 3 ≤ p.length then rayCastLoop px pz p else false
    | none => false
  if interior then JNum.nan
  else
    let best := (mainList cfg).foldl
      (fun (best : Option (Seg × ℚ)) seg =>
        let ax := seg.p1.1
        let az := seg.p1.2
        let vx := seg.p2.1 - ax
        let vz := seg.p2.2 - az
        let wx := px - ax
        let wz := pz - az
        let len2 := vx * vx + vz * vz
        let t := if 0 < len2 then Max.max 0 (Min.min 1 ((wx * vx + wz * vz) / len2)) else 0
        let cx := ax + vx * t
        let cz := az + vz * t
        let d := hypotQ (px - cx) (pz - cz)
        match best with
        | none => some (seg, d)
        | some (s0, d0) => if d < d0 then some (seg, d) else some (s0, d0))
      none
    match best with
    | none => JNum.nan
    | some (seg, bestDist) =>
        let lwRoom0 : JNum := (cfg.lw.lookup seg.name).getD JNum.nan
        let lwRoom1 :=
          if !lwRoom0.isFinite then
            match (cfg.params.bind (·.lpInMap)).bind (fun m => m.lookup seg.name) with
            | some lpin =>
                let aeq := JNum.orElse
                  (((facadeMap cfg seg.name).getD []).foldl
                    (fun s e => JNum.add s e.area) (JNum.fin 0))
                  (JNum.fin 1)
                ISOModel.computeLwRoomFromLpIn (JNum.fin lpin) aeq
            | none => lwRoom0
          else lwRoom0
        let lwRoom := if !lwRoom1.isFinite then JNum.fin 60 else lwRoom1
        let rePrime := rePrimeLookup cfg seg.name
        let dfRoom := (cfg.params.bind (·.dfRoom)).getD 1
        let dfOut := (cfg.params.bind (·.dfOut)).getD 1
        ISOModel.computeLpOutAtPoint
          { lwRoom := lwRoom, rePrime := rePrime, dfRoom := some dfRoom, dfOut := some dfOut,
            distanceM := JNum.fin (Max.max (1 / 100) bestDist),
            atmospheric := some (JNum.fin 0) }

/-- The pre/final smoothed base grid (part_010:196-202). -/
def smoothedBase (cfg : ComputeCfg) : MatFun :=
  let n := gridN cfg
  let pre := GaussianSmoother.apply (baseCell cfg) n n
    ((cfg.params.bind (·.preSmoothSize)).getD 0) ((cfg.params.bind (·.preSmoothSigma)).getD (6 / 5))
  GaussianSmoother.apply pre n n
    ((cfg.params.bind (·.finalSmoothSize)).getD 0) ((cfg.params.bind (·.finalSmoothSigma)).getD (4 / 5))

/-- `overlayParams` (part_010:205): `cfg.params?.colorOverlay || {}`. -/
def overlayParams (cfg : ComputeCfg) : OverlayParams :=
  (cfg.params.bind (·.colorOverlay)).getD {}

/-- Band selection for one segment's overlay (part_010:222-225): always
blue and green, yellow when `Lw >= yellowThreshold`, red when
`Lw >= redThreshold`. -/
def bandsForSegment (lwRoom : JNum) (yellowT redT : ℚ) : List ColorBand :=
  [ColorBand.blue, ColorBand.green]
    ++ (if JNum.geb lwRoom (JNum.fin yellowT) then [ColorBand.yellow] else [])
    ++ (if JNum.geb lwRoom (JNum.fin redT) then [ColorBand.red] else [])

/-- The `GradientParams` record `compute` passes to
`generateSegmentBandEnergy` (part_010:228-244). -/
def gradientParamsFor (cfg : ComputeCfg) : GradientFactory.GradientParams :=
  let op := overlayParams cfg
  { cellSize := cfg.params.bind (·.cellSize),
    sourceSpacing := cfg.params.bind (·.sourceSpacing),
    redMaxDist := op.redMaxDist,
    redFalloffScale := op.redFalloffScale,
    lateralTaper := op.lateralTaper,
    colorSpread := op.colorSpread,
    propagationBandMaxDist := op.propagationBandMaxDist,
    normalize := some (op.normalize.getD
      ((cfg.params.bind (·.normalize)).getD NormalizeMode.perMeter)),
    redSampleSpacing := some (op.redSampleSpacing.getD (3 / 25)),
    dotThreshold := some (op.dotThreshold.getD (-9 / 50)),
    invertNormals := some ((cfg.params.bind (·.invertNormals)).getD false),
    poly := cfg.poly,
    center := some (centroid cfg) }

/-- One segment's overlay-energy contribution to one cell
(part_010:214-249): zero for a segment without a finite `Lw`, else the sum
over its bands of the finite positive band-energy values. -/
def segOverlayContribution (cfg : ComputeCfg) (seg : Seg) (j i : ℕ) : JNum :=
  let lwValRaw : JNum := (cfg.lw.lookup seg.name).getD JNum.nan
  let lwRoom := if lwValRaw.isFinite then lwValRaw else JNum.nan
  if !lwRoom.isFinite then JNum.fin 0
  else
    let op := overlayParams cfg
    let rePrime := rePrimeLookup cfg seg.name
    let yellowT := op.yellowThreshold.getD 50
    let redT := op.redThreshold.getD 70
    let xs := gridAxes cfg
    (bandsForSegment lwRoom yellowT redT).foldl
      (fun acc band =>
        let v := GradientFactory.generateSegmentBandEnergyCell seg band lwRoom rePrime
          xs xs (gradientParamsFor cfg) j i
        if v.isFinite ∧ JNum.gtb v (JNum.fin 0) then JNum.add acc v else acc)
      (JNum.fin 0)

/-- The shared overlay energy grid (part_010:209-250). -/
def energyCell (cfg : ComputeCfg) (j i : ℕ) : JNum :=
  (mainList cfg).foldl (fun acc seg => JNum.add acc (segOverlayContribution cfg seg j i))
    (JNum.fin 0)

/-- The combined base + overlay field in dB (part_010:256-266): base dB to
linear energy, plus overlay energy, back to dB, NaN when nothing
accumulates. -/
def overlay0Cell (cfg : ComputeCfg) (j i : ℕ) : JNum :=
  let baseDb := smoothedBase cfg j i
  let baseEnergy := if baseDb.isFinite then JNum.pow10 (JNum.div baseDb (JNum.fin 10))
    else JNum.fin 0
  let srcEnergy := if (energyCell cfg j i).isFinite then energyCell cfg j i else JNum.fin 0
  let combined := JNum.add baseEnergy srcEnergy
  if JNum.gtb combined (JNum.fin 0) then JNum.mul (JNum.fin 10) (JNum.log10 combined)
  else JNum.nan

/-- One segment's hot-spot candidate update (part_010:287-421): projection,
probe-based outward normal with centroid fallback, lateral/longitudinal
Gaussian weights, edge taper, blended linear/logarithmic decay, capped at
the segment's `lw`; `bestValue` is updated only when the candidate exceeds
it under a JavaScript `>` comparison. -/
def hotSegmentStep (cfg : ComputeCfg) (px pz : ℚ) (bestValue : JNum) (seg : Seg) : JNum :=
  let op := overlayParams cfg
  let globalHotBoost := op.hotBoost.getD 1
  let lwValRaw := cfg.lw.lookup seg.name
  let lw : ℚ :=
    match lwValRaw with
    | some v => if v.isFinite then v.toQ else 0
    | none => 0
  if !(0 < lw) then bestValue
  else
    let ax := seg.p1.1
    let az := seg.p1.2
    let bx := seg.p2.1
    let bz := seg.p2.2
    let cellSize := (cfg.params.bind (·.cellSize)).getD 1
    let vx := bx - ax
    let vz := bz - az
    let wx := px - ax
    let wz := pz - az
    let segLen := hypotQ vx vz
    let len2 := vx * vx + vz * vz
    let tFrac := if 0 < len2 then (wx * vx + wz * vz) / len2 else 0
    let tClamped := Max.max 0 (Min.min 1 tFrac)
    let closestX := ax + vx * tClamped
    let closestZ := az + vz * tClamped
    let tFracTol : ℚ := 2 / 25
    if tFrac < -tFracTol ∨ tFrac > 1 + tFracTol then bestValue
    else
      let nearEndBlend :=
        if tFrac < 0 ∨ tFrac > 1 then
          Max.max (9 / 50) (1 - |if tFrac < 0 then tFrac else tFrac - 1| / tFracTol)
        else 1
      let tx := if segLen > 1 / 1000000000 then (bx - ax) / segLen else 1
      let tz := if segLen > 1 / 1000000000 then (bz - az) / segLen else 0
      let nx0 := -tz
      let nz0 := tx
      let probeStep := Max.max (1 / 20) (((cfg.params.bind (·.cellSize)).getD 1) * (7 / 20))
      let polyL := cfg.poly.getD []
      let havePoly : Bool := (cfg.poly.map (fun p => p.length != 0)).getD false
      let outIsInside := havePoly &&
        GradientFactory.pointInPolygon (closestX + nx0 * probeStep) (closestZ + nz0 * probeStep) polyL
      let inIsInside := havePoly &&
        GradientFactory.pointInPolygon (closestX - nx0 * probeStep) (closestZ - nz0 * probeStep) polyL
      let flip1 := outIsInside && !inIsInside
      let nx1 := if flip1 then -nx0 else nx0
      let nz1 := if flip1 then -nz0 else nz0
      let flip2 := outIsInside && inIsInside && havePoly &&
        decide (nx1 * (closestX - (centroid cfg).1) + nz1 * (closestZ - (centroid cfg).2) < 0)
      let nx := if flip2 then -nx1 else nx1
      let nz := if flip2 then -nz1 else nz1
      if havePoly &&
          GradientFactory.pointInPolygon (closestX + nx * probeStep) (closestZ + nz * probeStep) polyL
      then bestValue
      else
        let offX := px - closestX
        let offZ := pz - closestZ
        let distFront := hypotQ offX offZ
        let tangentialAbs := |offX * tx + offZ * tz|
        let redRadius0 := Max.max (5 / 2) (segLen * (3 / 5))
        let redRadius := if op.hotSegment = some seg.name
          then redRadius0 * (8 / 5) * globalHotBoost else redRadius0
        let redDecay : ℚ := if op.hotSegment = some seg.name then Max.max 2 (6 * (1 / 2)) else 6
        let lateralTol := Max.max (1 / 1000000) (cellSize * (3 / 5))
        if tangentialAbs > Max.max lateralTol (segLen * (3 / 5)) ∧ distFront > redRadius
        then bestValue
        else
          let perp := offX * nx + offZ * nz
          if perp ≤ 0 then bestValue
          else if distFront > redRadius ∧ distFront > (op.blueRadius.getD 20) then bestValue
          else
            let lateralSigma := Max.max (cellSize * (1 / 4)) (segLen * (9 / 50))
            let lateralWeight := powQ
              (expQ (-(tangentialAbs * tangentialAbs) / (2 * lateralSigma * lateralSigma)))
              (19 / 20)
            let centerOffset := |tClamped - segLen * (1 / 2)|
            let alongSigma := Max.max (segLen * (1 / 4)) (cellSize * (1 / 2))
            let alongWeight := expQ (-(centerOffset * centerOffset) / (2 * alongSigma * alongSigma))
            let combinedLateralWeight := Max.max (1 / 500)
              (lateralWeight * powQ alongWeight (19 / 20) * nearEndBlend)
            let lateralTaper := op.lateralTaper.getD (1 / 4)
            let wEdge := edgeTaperWeight tClamped segLen lateralTaper
            let wFront := Max.max 0 (1 - distFront / Max.max (1 / 1000000) redRadius)
            let linContrib := Max.max 0 (lw - redDecay * distFront)
            let logContrib := lw - 20 * log10Q (Max.max distFront (1 / 100))
            let sourceBoost := 1 + Max.max 0 ((lw - 60) / 40)
            let baseComb := ((3 / 5) * linContrib + (2 / 5) * logContrib)
              * wEdge * wFront * combinedLateralWeight
            let contribution0 := baseComb * sourceBoost
            let contribution1 :=
              if distFront < Max.max (1 / 10) (cellSize * (1 / 2)) then
                Max.max contribution0 (Min.min lw (lw - redDecay * (3 / 20)))
              else contribution0
            let contribution := Min.min lw contribution1
            if JNum.gtb (JNum.fin contribution) bestValue then JNum.fin contribution
            else bestValue

/-- The hot-spot-adjusted overlay of one cell (part_010:279-426): interior
cells keep the combined overlay; elsewhere the per-segment maximum is
folded in via `Math.max`. -/
def overlayCell (cfg : ComputeCfg) (j i : ℕ) : JNum :=
  let xs := gridAxes cfg
  let px := xs.getD i 0
  let pz := xs.getD j 0
  let v0 := overlay0Cell cfg j i
  let skip : Bool :=
    match cfg.poly with
    | some p => (p.length != 0) && GradientFactory.pointInPolygon px pz p
    | none => false
  if skip then v0
  else
    let bestValue := (mainList cfg).foldl (hotSegmentStep cfg px pz) v0
    JNum.max v0 bestValue

/-- The Gaussian-smoothed overlay (part_010:429-431); non-finite cells are
forced to NaN before smoothing. -/
def smoothedOverlay (cfg : ComputeCfg) : MatFun :=
  let op := overlayParams cfg
  let n := gridN cfg
  let size := Max.max 1 (op.overlaySmoothSize.getD 9)
  let sigma := Max.max (1 / 10) (op.overlaySmoothSigma.getD 3)
  GaussianSmoother.apply
    (fun j i => let v := overlayCell cfg j i; if v.isFinite then v else JNum.nan)
    n n size sigma

/-- The visibility mask (part_010:438-439): true (visible) outside the
perimeter, or everywhere when no perimeter is given. -/
def maskCell (cfg : ComputeCfg) (j i : ℕ) : Bool :=
  let xs := gridAxes cfg
  match cfg.poly with
  | some p =>
      if p.length ≠ 0 then !GradientFactory.pointInPolygon (xs.getD i 0) (xs.getD j 0) p
      else true
  | none => true

/-- The blended final grid before capping (part_010:434-441): smoothed
overlay outside the perimeter when finite, smoothed base otherwise. -/
def blendCell (cfg : ComputeCfg) (j i : ℕ) : JNum :=
  if maskCell cfg j i then
    let val := smoothedOverlay cfg j i
    if val.isFinite then val else smoothedBase cfg j i
  else smoothedBase cfg j i

/-- `Math.min(...)` over a non-empty list (0 sentinel for the empty case,
which the call sites guard). -/
def listMinQ : List ℚ → ℚ
  | [] => 0
  | x :: xs => xs.foldl Min.min x

/-- `Math.max(...)` over a non-empty list. -/
def listMaxQ : List ℚ → ℚ
  | [] => 0
  | x :: xs => xs.foldl Max.max x

/-- The row-major list of finite cell values of the blended grid
(part_010:444: `finalSmooth.flat().filter(Number.isFinite)`). -/
def finiteCells (cfg : ComputeCfg) : List ℚ :=
  (((List.range (gridN cfg)).flatMap
    (fun j => (List.range (gridN cfg)).map (fun i => blendCell cfg j i))).filterMap
    (fun v => if v.isFinite then some v.toQ else none))

/-- The supplied finite Lw values (part_010:451). -/
def suppliedLwVals (cfg : ComputeCfg) : List ℚ :=
  cfg.lw.filterMap (fun p => if p.2.isFinite then some p.2.toQ else none)

/-- The capped final grid (part_010:448-463): when at least one finite Lw
was supplied, every finite cell is clamped to the maximum supplied value. -/
def cappedCell (cfg : ComputeCfg) (j i : ℕ) : JNum :=
  let v := blendCell cfg j i
  match suppliedLwVals cfg with
  | [] => v
  | x :: xs =>
      let maxSuppliedLw := listMaxQ (x :: xs)
      if (JNum.fin maxSuppliedLw).isFinite then
        (if v.isFinite then JNum.fin (Min.min v.toQ maxSuppliedLw) else v)
      else v

/-- The row-major list of finite cell values after capping (part_010:466). -/
def finiteCellsAfterCap (cfg : ComputeCfg) : List ℚ :=
  (((List.range (gridN cfg)).flatMap
    (fun j => (List.range (gridN cfg)).map (fun i => cappedCell cfg j i))).filterMap
    (fun v => if v.isFinite then some v.toQ else none))

/-- The `z` output matrix: capped cells, non-finite converted to `null`
(part_010:471). -/
def zGrid (cfg : ComputeCfg) : List (List (Option ℚ)) :=
  (List.range (gridN cfg)).map (fun j => (List.range (gridN cfg)).map (fun i =>
    let v := cappedCell cfg j i
    if v.isFinite then some v.toQ else none))

/-- The final `min` (part_010:445, 467): min of the finite cells after
capping, 0 when no finite cell exists at either stage. -/
def computeMin (cfg : ComputeCfg) : JNum :=
  let finalMin := if finiteCells cfg ≠ [] then JNum.fin (listMinQ (finiteCells cfg))
    else JNum.fin 0
  if finiteCellsAfterCap cfg ≠ [] then JNum.fin (listMinQ (finiteCellsAfterCap cfg))
  else finalMin

/-- The final `max` (part_010:446, 468). -/
def computeMax (cfg : ComputeCfg) : JNum :=
  let finalMax := if finiteCells cfg ≠ [] then JNum.fin (listMaxQ (finiteCells cfg))
    else JNum.fin 0
  if finiteCellsAfterCap cfg ≠ [] then JNum.fin (listMaxQ (finiteCellsAfterCap cfg))
  else finalMax

/-- `AcousticCalculator.compute` (part_010:99-473), assembled from the
staged cell functions above. -/
def compute (cfg : ComputeCfg) : ComputeResult :=
  { x := gridAxes cfg, y := gridAxes cfg, z := zGrid cfg,
    min := computeMin cfg, max := computeMax cfg,
    poly := cfg.poly.getD [] }

@[simp] theorem compute_z (cfg : ComputeCfg) : (compute cfg).z = zGrid cfg := rfl

@[simp] theorem compute_min (cfg : ComputeCfg) : (compute cfg).min = computeMin cfg := rfl

@[simp] theorem compute_max (cfg : ComputeCfg) : (compute cfg).max = computeMax cfg := rfl

end AcousticCalculator

/-! ## useHeatmap (src/app/acoustics/GradientFactory.ts third chunk and
src/unnamed/part_010 second chunk) -/

namespace Heatmap

/-- The hook's configuration slice (`config.resolution`, `config.areaSize`). -/
structure HeatmapConfig where
  resolution : Option ℚ := none
  areaSize : Option ℚ := none

/-- The params slice the hook reads. -/
structure HeatmapParams where
  sourceSpacing : Option ℚ := none
  cellSize : Option ℚ := none
  redWeight : Option ℚ := none
  yellowWeight : Option ℚ := none
  overlayRedMaxDist : Option ℚ := none
  overlayYellowMaxDist : Option ℚ := none
  overlaySmoothSize : Option ℚ := none

/-- The hook's result `{ x, y, z, min, max }` (the `hover` matrix of the
part_010 variant is presentation-only text and is not modelled). -/
structure HeatmapResult where
  x : List ℚ
  y : List ℚ
  z : List (List JNum)
  min : JNum
  max : JNum
  deriving Repr

/-- The min/max scan over the z matrix ignoring non-finite entries
(GradientFactory.ts useHeatmap:543-552, identical in part_010:557-567):
starts at `(Infinity, -Infinity)` and flips to `(NaN, NaN)` when nothing
finite was seen. -/
def minMaxStep (p : JNum × JNum) (v : JNum) : JNum × JNum :=
  if !v.isFinite then p
  else (if JNum.ltb v p.1 then v else p.1, if JNum.gtb v p.2 then v else p.2)

/-- The min/max fold over the z matrix. -/
def minMaxScan (zmat : List (List JNum)) : JNum × JNum :=
  let p := zmat.foldl (fun (p : JNum × JNum) row => row.foldl minMaxStep p)
    (JNum.inf, JNum.ninf)
  if p.1 = JNum.inf then (JNum.nan, JNum.nan) else p

/-- `useHeatmap` (GradientFactory.ts:503-557).  The facade segments come
from `PerimeterExtractor.extractFacadesSegments(lShapeMesh)`, part of the
external Geometry Adapter (spec §2/§6) whose implementation is not under
`src/`; they are therefore taken as an input parameter.  `building.LwBySegment`
is passed as the list of its `value` entries. -/
def useHeatmap (config : HeatmapConfig) (lwBySegment : Option (List JNum))
    (params : HeatmapParams) (finalLoop : List (ℚ × ℚ))
    (segments : List ColorMap.RawSeg) : HeatmapResult :=
  if finalLoop.length < 3 then
    { x := [], y := [], z := [[]], min := JNum.nan, max := JNum.nan }
  else
    let lwMap : List (String × JNum) :=
      match lwBySegment with
      | some arr => arr.enum.map (fun p => (WaveEmitter.segKey p.1, p.2))
      | none => []
    let res := config.resolution.getD 60
    let area := config.areaSize.getD 120
    let resN := (⌊res⌋).toNat
    let dx := area / Max.max 1 res
    let half := area / 2
    let gridX := (List.range resN).map (fun (idx : ℕ) => -half + dx * ((idx : ℚ) + 1 / 2))
    let gridY := (List.range resN).map (fun (idx : ℕ) => -half + dx * ((idx : ℚ) + 1 / 2))
    let redMaxDist := params.overlayRedMaxDist.getD 2
    let opts : ColorMap.RedHeatmapOpts :=
      { sampleSpacing := some ((params.sourceSpacing.getD (params.cellSize.getD 1))),
        outwardOffset := some (1 / 50),
        redMaxDist := some redMaxDist,
        yellowMaxDist := some (params.overlayYellowMaxDist.getD (redMaxDist * 3)),
        dbPerMeter := some (1 / 2),
        redWeight := some (params.redWeight.getD 1),
        yellowWeight := some (params.yellowWeight.getD (3 / 5)),
        applyYellowBlur := some (params.overlaySmoothSize.getD 2) }
    let zmat := ColorMap.generateRedHeatmapFromFacade gridX gridY segments finalLoop
      (some lwMap) opts
    let mm := minMaxScan zmat
    { x := gridX, y := gridY, z := zmat, min := mm.1, max := mm.2 }

end Heatmap

/-! ## Claim theorems -/

set_option maxRecDepth 10000

/-- Access to a `z` cell of a compute result (`z[j][i]`, `null` out of range). -/
def zAt (r : AcousticCalculator.ComputeResult) (j i : ℕ) : Option ℚ :=
  (r.z.getD j []).getD i none

/-- C3: for every distance `r`, `aGeo(r) = 8 + 20·log10(max(r, 0.01))`
(the distance is clamped to 0.01 m before the logarithm), and
`computeLpOutAtPoint` returns exactly
`Lw_room − RePrime − Df_room − Df_out − aGeo(distanceM) − A_atm` with
`Df_room` defaulting to 6 dB and `Df_out` to 0 dB when not supplied
(second conjunct spelled out on finite inputs, where the chain of
subtractions is a single rational value). -/
theorem c3_iso_propagation_formulas :
    (∀ r : JNum, ISOModel.aGeo r =
      JNum.add (JNum.fin 8)
        (JNum.mul (JNum.fin 20) (JNum.log10 (JNum.max (JNum.fin (1 / 100)) r)))) ∧
    (∀ lw re d a : ℚ,
      ISOModel.computeLpOutAtPoint
          { lwRoom := JNum.fin lw, rePrime := JNum.fin re,
            distanceM := JNum.fin d, atmospheric := some (JNum.fin a) } =
        JNum.fin (lw - re - 6 - 0 - (8 + 20 * log10Q (Max.max (1 / 100) d)) - a)) ∧
    (∀ lw re dfr dfo d a : ℚ,
      ISOModel.computeLpOutAtPoint
          { lwRoom := JNum.fin lw, rePrime := JNum.fin re, dfRoom := some dfr,
            dfOut := some dfo, distanceM := JNum.fin d,
            atmospheric := some (JNum.fin a) } =
        JNum.fin (lw - re - dfr - dfo - (8 + 20 * log10Q (Max.max (1 / 100) d)) - a)) := by
  refine ⟨?_, ?_, ?_⟩
  · intro r
    rfl
  · intro lw re d a
    have hpos : (0 : ℚ) < Max.max (1 / 100) d :=
      lt_of_lt_of_le (by norm_num) (le_max_left _ _)
    unfold ISOModel.computeLpOutAtPoint ISOModel.aGeo
    simp only [Option.getD, JNum.max_fin_fin, JNum.isFinite_fin,
      JNum.log10_fin_pos _ hpos, JNum.mul_fin_fin, JNum.add_fin_fin, JNum.sub_fin_fin,
      Bool.not_true, Bool.false_eq_true, if_false, if_true]
    congr 1
    ring
  · intro lw re dfr dfo d a
    have hpos : (0 : ℚ) < Max.max (1 / 100) d :=
      lt_of_lt_of_le (by norm_num) (le_max_left _ _)
    unfold ISOModel.computeLpOutAtPoint ISOModel.aGeo
    simp only [Option.getD, JNum.max_fin_fin, JNum.isFinite_fin,
      JNum.log10_fin_pos _ hpos, JNum.mul_fin_fin, JNum.add_fin_fin, JNum.sub_fin_fin,
      Bool.not_true, Bool.false_eq_true, if_false, if_true]
    congr 1
    ring

/-- C8: for every input whose perimeter has fewer than 3 points, the
heatmap computation returns the empty grid structure
`{x:[], y:[], z:[[]], min:NaN, max:NaN}` and (being a total function)
does not throw. -/
theorem c8_insufficient_perimeter (config : Heatmap.HeatmapConfig)
    (lwBySegment : Option (List JNum)) (params : Heatmap.HeatmapParams)
    (finalLoop : List (ℚ × ℚ)) (segments : List ColorMap.RawSeg)
    (h : finalLoop.length < 3) :
    Heatmap.useHeatmap config lwBySegment params finalLoop segments =
      { x := [], y := [], z := [[]], min := JNum.nan, max := JNum.nan } := by
  unfold Heatmap.useHeatmap
  rw [if_pos h]

/-- Witness for C8 at the concrete two-point perimeter `[(0,0), (1,0)]`. -/
theorem c8_insufficient_perimeter_witness :
    ([((0 : ℚ), (0 : ℚ)), (1, 0)] : List (ℚ × ℚ)).length < 3 ∧
    Heatmap.useHeatmap {} none {} [((0 : ℚ), (0 : ℚ)), (1, 0)] [] =
      { x := [], y := [], z := [[]], min := JNum.nan, max := JNum.nan } :=
  ⟨by decide, c8_insufficient_perimeter {} none {} _ [] (by decide)⟩

/-- C2: when at least one finite Lw value is supplied in the per-segment
sound-level map, every finite cell of the returned `z` matrix is at most
the maximum of the supplied finite Lw values. -/
theorem c2_output_cap (cfg : AcousticCalculator.ComputeCfg)
    (hsupplied : AcousticCalculator.suppliedLwVals cfg ≠ [])
    (row : List (Option ℚ)) (hrow : row ∈ (AcousticCalculator.compute cfg).z)
    (cell : Option ℚ) (hcell : cell ∈ row) (q : ℚ) (hq : cell = some q) :
    q ≤ AcousticCalculator.listMaxQ (AcousticCalculator.suppliedLwVals cfg) := by
  rw [AcousticCalculator.compute_z, AcousticCalculator.zGrid] at hrow
  simp only [List.mem_map, List.mem_range] at hrow
  obtain ⟨j, _, rfl⟩ := hrow
  simp only [List.mem_map, List.mem_range] at hcell
  obtain ⟨i, _, rfl⟩ := hcell
  obtain ⟨x, xs, hsup⟩ : ∃ x xs, AcousticCalculator.suppliedLwVals cfg = x :: xs := by
    cases h : AcousticCalculator.suppliedLwVals cfg with
    | nil => exact absurd h hsupplied
    | cons x xs => exact ⟨x, xs, rfl⟩
  rw [hsup]
  unfold AcousticCalculator.cappedCell at hq
  rw [hsup] at hq
  simp only [JNum.isFinite_fin, if_true] at hq
  by_cases hfin : (AcousticCalculator.blendCell cfg j i).isFinite
  · simp only [hfin, if_true] at hq
    simp only [JNum.isFinite_fin, if_true, JNum.toQ_fin, Option.some.injEq] at hq
    subst hq
    exact min_le_right _ _
  · simp only [hfin, if_false] at hq
    rw [if_neg (by simpa using hfin)] at hq
    exact absurd hq (by simp [hfin])

/-- Concrete configuration for the C2 witness: one supplied finite Lw. -/
def c2wcfg : AcousticCalculator.ComputeCfg :=
  { areaSize := 2, resolution := 3, lw := [("segment-0", JNum.fin 50)] }

/-- Witness for C2 at `c2wcfg` (the supplied map holds one finite value, 50). -/
theorem c2_output_cap_witness :
    AcousticCalculator.suppliedLwVals c2wcfg ≠ [] ∧
    (∀ row ∈ (AcousticCalculator.compute c2wcfg).z, ∀ cell ∈ row, ∀ q : ℚ,
      cell = some q →
        q ≤ AcousticCalculator.listMaxQ (AcousticCalculator.suppliedLwVals c2wcfg)) :=
  ⟨by with_unfolding_all exact (fun h => List.noConfusion h),
   fun row hr cell hc q hq =>
     c2_output_cap c2wcfg (by with_unfolding_all exact (fun h => List.noConfusion h))
       row hr cell hc q hq⟩

/-- Association-list lookup returns the value of a present key when the
keys are duplicate-free. -/
theorem lookup_of_nodup_mem {α β : Type} [BEq α] [LawfulBEq α]
    (l : List (α × β)) (k : α) (v : β)
    (hnd : (l.map Prod.fst).Nodup) (hmem : (k, v) ∈ l) : l.lookup k = some v := by
  induction l with
  | nil => cases hmem
  | cons p t ih =>
    rcases List.mem_cons.mp hmem with heq | hm
    · subst heq
      simp [List.lookup]
    · have hk : ¬(k == p.1) = true := by
        intro he
        have hkp : k = p.1 := eq_of_beq he
        have hmem2 : k ∈ t.map Prod.fst := List.mem_map.mpr ⟨(k, v), hm, rfl⟩
        rw [List.map_cons, List.nodup_cons] at hnd
        exact hnd.1 (hkp ▸ hmem2)
      have hk2 : (k == p.1) = false := by simpa using hk
      rw [List.lookup]
      simp only [hk2]
      exact ih ((List.map_cons _ _ _ ▸ hnd : (p.1 :: t.map Prod.fst).Nodup).of_cons) hm

/-- C10: called without a sound-level map, `WaveEmitter.generateSources`
synthesises a default map assigning 100 dB to `segment-0` and 0 dB to
every other index, so a facade named `segment-0` resolves to 100 dB and
every other canonically named facade to 0 dB; and every non-finite value
in a supplied map is coerced to 0 before use. -/
theorem c10_default_lw_map :
    (∀ n k : ℕ, k < n →
      (WaveEmitter.defaultLwMap n)[k]? =
        some (WaveEmitter.segKey k, if k = 0 then JNum.fin 100 else JNum.fin 0)) ∧
    (∀ (m : List (String × JNum)) (k : String),
      (WaveEmitter.normalizeLwMap m).lookup k =
        (m.lookup k).map (fun v => if v.isFinite then v.toQ else 0)) ∧
    (∀ n k : ℕ, ∀ nx nz : ℚ, k < n →
      ((WaveEmitter.defaultLwMap n).map Prod.fst).Nodup →
      WaveEmitter.lwForEdge (WaveEmitter.normalizeLwMap (WaveEmitter.defaultLwMap n))
        (WaveEmitter.segKey k) nx nz = if k = 0 then 100 else 0) := by
  refine ⟨?_, ?_, ?_⟩
  · intro n k hk
    simp [WaveEmitter.defaultLwMap, List.getElem?_map, List.getElem?_range hk]
  · intro m k
    induction m with
    | nil => simp [WaveEmitter.normalizeLwMap]
    | cons p t ih =>
      rw [WaveEmitter.normalizeLwMap, List.map_cons]
      rw [List.lookup, List.lookup]
      by_cases hk : (k == p.1) = true
      · simp [hk]
      · simp only [hk, Bool.false_eq_true, if_false]
        exact ih
  · intro n k nx nz hk hnd
    have hmem : (WaveEmitter.segKey k, if k = 0 then JNum.fin 100 else JNum.fin 0)
        ∈ WaveEmitter.defaultLwMap n := by
      unfold WaveEmitter.defaultLwMap
      exact List.mem_map.mpr ⟨k, List.mem_range.mpr hk, rfl⟩
    have hmem2 : (WaveEmitter.segKey k, if k = 0 then (100 : ℚ) else 0)
        ∈ WaveEmitter.normalizeLwMap (WaveEmitter.defaultLwMap n) := by
      unfold WaveEmitter.normalizeLwMap
      refine List.mem_map.mpr ⟨_, hmem, ?_⟩
      by_cases h0 : k = 0 <;> simp [h0]
    have hnd2 : ((WaveEmitter.normalizeLwMap (WaveEmitter.defaultLwMap n)).map
        Prod.fst).Nodup := by
      unfold WaveEmitter.normalizeLwMap
      rw [List.map_map]
      exact hnd
    have hlook := lookup_of_nodup_mem _ _ _ hnd2 hmem2
    unfold WaveEmitter.lwForEdge
    rw [hlook]
    by_cases h0 : k = 0 <;> simp [h0, qOr]

/-- Witness for C10 at `n = 3`: the synthesised map holds 100 at index 0,
index-0 lookups resolve to 100 and index-2 lookups to 0, and a NaN map
value is coerced to 0. -/
theorem c10_default_lw_map_witness :
    (WaveEmitter.defaultLwMap 3)[0]? = some (WaveEmitter.segKey 0, JNum.fin 100) ∧
    (WaveEmitter.normalizeLwMap [("a", JNum.nan)]).lookup "a" = some 0 ∧
    WaveEmitter.lwForEdge (WaveEmitter.normalizeLwMap (WaveEmitter.defaultLwMap 3))
      (WaveEmitter.segKey 0) 0 (-1) = 100 ∧
    WaveEmitter.lwForEdge (WaveEmitter.normalizeLwMap (WaveEmitter.defaultLwMap 3))
      (WaveEmitter.segKey 2) 0 (-1) = 0 :=
  ⟨by rw [c10_default_lw_map.1 3 0 (by decide)]; rfl,
   by rw [c10_default_lw_map.2.1]; with_unfolding_all rfl,
   by rw [c10_default_lw_map.2.2 3 0 0 (-1) (by decide) (by decide)]; rfl,
   by rw [c10_default_lw_map.2.2 3 2 0 (-1) (by decide) (by decide)]; rfl⟩

/-- The degenerate (zero-length) segment used against C6. -/
def c6seg : Seg := ⟨"segment-0", (0, 0), (0, 0)⟩

/-- C6 counterexample: `WaveEmitter.generateSources` produces one point
emitter — not zero — for a zero-length segment (its `hypot || 1` fallback
treats the degenerate edge as 1 m long), refuting "the source sampler
produces zero point emitters for a near-zero-length segment". -/
theorem c6_counterexample :
    hypotQ (c6seg.p2.1 - c6seg.p1.1) (c6seg.p2.2 - c6seg.p1.2) = 0 ∧
    (WaveEmitter.generateSources [] [c6seg] 1 0
        (some [("segment-0", JNum.fin 80)])).length = 1 :=
  ⟨by with_unfolding_all rfl, by with_unfolding_all rfl⟩

/-- C6 amended: the band energy generator returns an all-zero energy cell
exactly for segments of length at most `1e-9` (not `1e-6`), while the
source sampler always emits at least one point per edge, degenerate edges
included. -/
theorem c6_degenerate_segments :
    (∀ (seg : Seg) (band : ColorBand) (lwRoom rePrime : JNum) (xs ys : List ℚ)
      (params : GradientFactory.GradientParams) (j i : ℕ),
      hypotQ (seg.p2.1 - seg.p1.1) (seg.p2.2 - seg.p1.2) ≤ 1 / 1000000000 →
      GradientFactory.generateSegmentBandEnergyCell seg band lwRoom rePrime xs ys params j i
        = JNum.fin 0) ∧
    (∀ (center : ℚ × ℚ) (lwMap : List (String × ℚ)) (spacing offset : ℚ)
      (a b : ℚ × ℚ) (key : String),
      1 ≤ (WaveEmitter.sourcesForEdge center lwMap spacing offset a b key).length) := by
  constructor
  · intro seg band lwRoom rePrime xs ys params j i h
    unfold GradientFactory.generateSegmentBandEnergyCell
    rw [if_pos h]
  · intro center lwMap spacing offset a b key
    have hlen : (WaveEmitter.sourcesForEdge center lwMap spacing offset a b key).length
        = Nat.max 1 (ceilQ (qOr (hypotQ (b.1 - a.1) (b.2 - a.2)) 1 / spacing)) := by
      unfold WaveEmitter.sourcesForEdge
      rw [List.length_map, List.length_range]
    rw [hlen]
    exact Nat.le_max_left 1 _

/-- Witness for C6 at the zero-length segment `c6seg` and a concrete edge. -/
theorem c6_degenerate_segments_witness :
    GradientFactory.generateSegmentBandEnergyCell c6seg ColorBand.blue (JNum.fin 80)
      (JNum.fin 30) [0] [0] {} 0 0 = JNum.fin 0 ∧
    1 ≤ (WaveEmitter.sourcesForEdge (0, 0) [] 1 0 (0, 0) (0, 0) "segment-0").length :=
  ⟨c6_degenerate_segments.1 c6seg ColorBand.blue (JNum.fin 80) (JNum.fin 30) [0] [0] {} 0 0
      (by
        have h0 : hypotQ (c6seg.p2.1 - c6seg.p1.1) (c6seg.p2.2 - c6seg.p1.2) = 0 := by
          with_unfolding_all rfl
        rw [h0]
        norm_num),
   c6_degenerate_segments.2 (0, 0) [] 1 0 (0, 0) (0, 0) "segment-0"⟩

/-- The claim's validity predicate for a facade element: positive area
(after `Number(area) || 0`) and finite `R`. -/
def c4valid (e : ISOModel.FacadeElement) : Bool :=
  !(JNum.leb (JNum.orElse e.area (JNum.fin 0)) (JNum.fin 0)) && e.R.isFinite

/-- `Σ_j S_j` over the valid elements, from the claim's formula. -/
def c4areaSum (els : List ISOModel.FacadeElement) : ℚ :=
  (els.filter c4valid).foldl (fun s e => s + e.area.toQ) 0

/-- `Σ_j S_j · 10^(−R_j/10)` over the valid elements, from the claim's
formula. -/
def c4weightedSum (els : List ISOModel.FacadeElement) : ℚ :=
  (els.filter c4valid).foldl (fun s e => s + e.area.toQ * pow10Q (-e.R.toQ / 10)) 0

/-- A valid element (with a non-`Infinity` area) has a finite positive
area and a finite `R`. -/
theorem c4valid_shape (e : ISOModel.FacadeElement) (hinf : e.area ≠ JNum.inf)
    (hv : c4valid e = true) :
    (∃ q : ℚ, e.area = JNum.fin q ∧ 0 < q) ∧ e.R.isFinite = true := by
  unfold c4valid at hv
  rw [Bool.and_eq_true] at hv
  obtain ⟨hs, hr⟩ := hv
  refine ⟨?_, hr⟩
  cases harea : e.area with
  | nan => rw [harea] at hs; simp [JNum.orElse, JNum.truthy, JNum.leb] at hs
  | inf => exact absurd harea hinf
  | ninf => rw [harea] at hs; simp [JNum.orElse, JNum.truthy, JNum.leb] at hs
  | fin q =>
      rw [harea] at hs
      by_cases hq0 : q = 0
      · subst hq0
        simp [JNum.orElse, JNum.truthy, JNum.leb] at hs
      · refine ⟨q, rfl, ?_⟩
        have hq : ¬ q ≤ 0 := by
          simpa [JNum.orElse, JNum.truthy, JNum.leb, hq0] using hs
        linarith

/-- An element skipped by `gfAccStep` is exactly one rejected by `c4valid`. -/
theorem gfAccStep_skip (p : JNum × JNum) (e : ISOModel.FacadeElement)
    (h : c4valid e = false) : GradientFactory.gfAccStep p e = p := by
  unfold GradientFactory.gfAccStep
  unfold c4valid at h
  cases hb : JNum.leb (JNum.orElse e.area (JNum.fin 0)) (JNum.fin 0) <;>
    cases hf : e.R.isFinite <;> simp [hb, hf] at h ⊢

/-- A kept element adds its area and weighted term to finite accumulators. -/
theorem gfAccStep_keep (a w : ℚ) (e : ISOModel.FacadeElement)
    (hinf : e.area ≠ JNum.inf) (h : c4valid e = true) :
    GradientFactory.gfAccStep (JNum.fin a, JNum.fin w) e =
      (JNum.fin (a + e.area.toQ), JNum.fin (w + e.area.toQ * pow10Q (-e.R.toQ / 10))) := by
  obtain ⟨⟨q, harea, hq⟩, hr⟩ := c4valid_shape e hinf h
  obtain ⟨r, hR⟩ : ∃ r : ℚ, e.R = JNum.fin r := by
    cases hr2 : e.R <;> simp [hr2, JNum.isFinite] at hr ⊢
  have hef := h
  unfold c4valid at hef
  rw [Bool.and_eq_true] at hef
  have hb : JNum.leb (JNum.orElse e.area (JNum.fin 0)) (JNum.fin 0) = false := by
    have hb0 := hef.1
    simp at hb0
    exact hb0
  unfold GradientFactory.gfAccStep
  rw [if_neg (by simp [hb, hef.2])]
  rw [harea, hR]
  have horElse : JNum.orElse (JNum.fin q) (JNum.fin 0) = JNum.fin q := by
    simp [JNum.orElse, JNum.truthy, (by linarith : q ≠ 0)]
  rw [horElse]
  have hdiv : JNum.div (JNum.neg (JNum.fin r)) (JNum.fin 10) = JNum.fin (-r / 10) := by
    simp [JNum.neg, JNum.div]
  rw [hdiv]
  simp [JNum.pow10, harea, hR]

/-- The accumulator fold of `computeFacadeRePrime` computes the claim's
filtered sums (elements with `Infinity` area excluded by hypothesis, since
JavaScript would overflow the accumulators there). -/
theorem gf_fold_eq (l : List ISOModel.FacadeElement)
    (hinf : ∀ e ∈ l, e.area ≠ JNum.inf) (a w : ℚ) :
    l.foldl GradientFactory.gfAccStep (JNum.fin a, JNum.fin w) =
      (JNum.fin ((l.filter c4valid).foldl (fun s e => s + e.area.toQ) a),
       JNum.fin ((l.filter c4valid).foldl
         (fun s e => s + e.area.toQ * pow10Q (-e.R.toQ / 10)) w)) := by
  induction l generalizing a w with
  | nil => simp
  | cons e t ih =>
      have hinfe : e.area ≠ JNum.inf := hinf e (List.mem_cons_self e t)
      have hinft : ∀ x ∈ t, x.area ≠ JNum.inf := fun x hx => hinf x (List.mem_cons_of_mem e hx)
      rw [List.foldl_cons]
      cases hv : c4valid e with
      | false =>
          rw [gfAccStep_skip _ _ hv, List.filter_cons_of_neg (by simp [hv])]
          exact ih hinft a w
      | true =>
          rw [gfAccStep_keep a w e hinfe hv, List.filter_cons_of_pos (by simp [hv])]
          rw [List.foldl_cons, List.foldl_cons]
          exact ih hinft _ _

/-- Accumulating non-negative terms never decreases the accumulator. -/
theorem foldl_add_le {α : Type} (f : α → ℚ) (l : List α) (a : ℚ)
    (hf : ∀ e ∈ l, 0 ≤ f e) : a ≤ l.foldl (fun s e => s + f e) a := by
  induction l generalizing a with
  | nil => simp
  | cons e t ih =>
      rw [List.foldl_cons]
      have h1 : a ≤ a + f e := by
        have := hf e (List.mem_cons_self e t)
        linarith
      exact le_trans h1 (ih _ (fun x hx => hf x (List.mem_cons_of_mem e hx)))

/-- Accumulating positive terms over a non-empty list from 0 is positive. -/
theorem foldl_add_pos {α : Type} (f : α → ℚ) (l : List α)
    (hf : ∀ e ∈ l, 0 < f e) (hne : l ≠ []) :
    0 < l.foldl (fun s e => s + f e) 0 := by
  cases l with
  | nil => exact absurd rfl hne
  | cons e t =>
      rw [List.foldl_cons]
      have h1 : 0 < 0 + f e := by
        have := hf e (List.mem_cons_self e t)
        linarith
      exact lt_of_lt_of_le h1
        (foldl_add_le f t _ (fun x hx => le_of_lt (hf x (List.mem_cons_of_mem e hx))))

/-- C4 amended: `GradientFactory.computeFacadeRePrime` excludes elements
with non-positive area or non-finite `R` and yields
`−10·log10(Σ S_j·10^(−R_j/10) / Σ S_j)` over the remaining ones, NaN when
none remain.  (Elements with an `Infinity` area are excluded by hypothesis:
JavaScript would overflow the accumulators there.) -/
theorem c4_facade_re_prime (elements : List ISOModel.FacadeElement)
    (hinf : ∀ e ∈ elements, e.area ≠ JNum.inf) :
    GradientFactory.computeFacadeRePrime elements none =
      (if elements.filter c4valid = [] then JNum.nan
       else JNum.fin (-10 * log10Q (c4weightedSum elements / c4areaSum elements))) := by
  simp only [GradientFactory.computeFacadeRePrime, gf_fold_eq elements hinf 0 0]
  by_cases hlen : elements.length = 0
  · rw [if_pos hlen]
    have he : elements = [] := List.length_eq_zero.mp hlen
    subst he
    simp
  · rw [if_neg hlen]
    by_cases hfil : elements.filter c4valid = []
    · rw [if_pos hfil, hfil]
      simp [JNum.leb]
    · rw [if_neg hfil]
      have hmemq : ∀ e ∈ elements.filter c4valid, (∃ q : ℚ, e.area = JNum.fin q ∧ 0 < q) := by
        intro e he
        rw [List.mem_filter] at he
        exact (c4valid_shape e (hinf e he.1) he.2).1
      have hApos : 0 < c4areaSum elements := by
        unfold c4areaSum
        apply foldl_add_pos _ _ _ hfil
        intro e he
        obtain ⟨q, hq, hqpos⟩ := hmemq e he
        rw [hq]
        simpa using hqpos
      have hWpos : 0 < c4weightedSum elements := by
        unfold c4weightedSum
        apply foldl_add_pos _ _ _ hfil
        intro e he
        obtain ⟨q, hq, hqpos⟩ := hmemq e he
        rw [hq]
        have := pow10Q_pos (-e.R.toQ / 10)
        simpa using mul_pos hqpos this
      have hA : c4areaSum elements = (elements.filter c4valid).foldl
          (fun s e => s + e.area.toQ) 0 := rfl
      have hW : c4weightedSum elements = (elements.filter c4valid).foldl
          (fun s e => s + e.area.toQ * pow10Q (-e.R.toQ / 10)) 0 := rfl
      rw [← hA, ← hW]
      rw [if_neg (by
        simp only [Bool.or_eq_true, JNum.leb]
        push_neg
        constructor
        · simpa using not_le.mpr hApos
        · simpa using not_le.mpr hWpos)]
      rw [JNum.isFinite_div_fin_fin _ _ (ne_of_gt hApos)]
      rw [JNum.log10_fin_pos _ (div_pos hWpos hApos)]
      simp

/-- C4 counterexample: `ISOModel.computeFacadeRePrime` — also cited by the
claim — returns the finite value 120 dB (not NaN) on an empty element
list, and substitutes `R = 30` (rather than excluding the element) for a
non-finite `R`, returning 30 dB where the claim's exclusion rule would
have no valid elements and demand NaN. -/
theorem c4_counterexample :
    ISOModel.computeFacadeRePrime [] = JNum.fin 120 ∧
    ISOModel.computeFacadeRePrime [⟨JNum.fin 5, JNum.nan⟩] = JNum.fin 30 := by
  have h12 : log10Q (1 / 1000000000000) = -12 := by
    have h : ((1 : ℚ) / 1000000000000) = ((10 : ℕ) : ℚ) ^ (-12 : ℤ) := by norm_num
    rw [log10Q_eq, h, Int.log_zpow (by norm_num)]
    norm_num
  have h3 : log10Q (1 / 1000) = -3 := by
    have h : ((1 : ℚ) / 1000) = ((10 : ℕ) : ℚ) ^ (-3 : ℤ) := by norm_num
    rw [log10Q_eq, h, Int.log_zpow (by norm_num)]
    norm_num
  have hp : pow10Q (-3) = 1 / 1000 := by
    rw [pow10Q]
    norm_num
  have hd1 : JNum.div (JNum.fin 0) (JNum.fin (1 / 1000000)) = JNum.fin 0 := by
    norm_num [JNum.div]
  constructor
  · simp only [ISOModel.computeFacadeRePrime, List.foldl_nil, JNum.max_fin_fin,
      max_eq_left (by norm_num : (0 : ℚ) ≤ 1 / 1000000), hd1,
      max_eq_left (by norm_num : (0 : ℚ) ≤ 1 / 1000000000000)]
    rw [JNum.log10_fin_pos _ (by norm_num), h12]
    norm_num
  · have hd2 : JNum.div (JNum.neg (JNum.fin 30)) (JNum.fin 10) = JNum.fin (-3) := by
      norm_num [JNum.div, JNum.neg]
    have hd3 : JNum.div (JNum.fin (1 / 200)) (JNum.fin 5) = JNum.fin (1 / 1000) := by
      norm_num [JNum.div]
    simp only [ISOModel.computeFacadeRePrime, List.foldl_cons, List.foldl_nil,
      JNum.isFinite_nan, Bool.false_eq_true, if_false, JNum.max_fin_fin,
      JNum.add_fin_fin, hd2, JNum.pow10_fin, hp, JNum.mul_fin_fin]
    norm_num
    rw [hd3, JNum.max_fin_fin,
      max_eq_right (by norm_num : (1 : ℚ) / 1000000000000 ≤ 1 / 1000),
      JNum.log10_fin_pos _ (by norm_num), h3]
    norm_num

/-- Witness for C4 at two singleton element lists: a NaN `R` leaves no
valid element (result NaN), a finite one yields the area-weighted formula. -/
theorem c4_facade_re_prime_witness :
    GradientFactory.computeFacadeRePrime [⟨JNum.fin 2, JNum.nan⟩] none = JNum.nan ∧
    GradientFactory.computeFacadeRePrime [⟨JNum.fin 2, JNum.fin 20⟩] none
      = JNum.fin (-10 * log10Q (c4weightedSum [⟨JNum.fin 2, JNum.fin 20⟩]
          / c4areaSum [⟨JNum.fin 2, JNum.fin 20⟩])) :=
  ⟨by
    rw [c4_facade_re_prime _ (by decide)]
    with_unfolding_all rfl,
   by
    rw [c4_facade_re_prime _ (by decide)]
    rw [if_neg (by with_unfolding_all exact (fun h => List.noConfusion h))]⟩

/-- Concrete configuration for the C9 counterexample: one segment whose
supplied Lw is 0 (finite but not positive). -/
def c9cfg : AcousticCalculator.ComputeCfg :=
  { areaSize := 4, resolution := 3,
    main := some [⟨"segment-0", (-1, -2), (1, -2)⟩],
    lw := [("segment-0", JNum.fin 0)] }

set_option maxHeartbeats 4000000 in
/-- C9 counterexample: a segment with the finite but non-positive Lw 0
still accumulates positive overlay band energy (the overlay stage only
checks finiteness, not positivity), refuting "segments without a finite,
positive Lw contribute no overlay energy". -/
theorem c9_counterexample :
    c9cfg.lw.lookup "segment-0" = some (JNum.fin 0) ∧
    ¬ ((0 : ℚ) > 0) ∧
    JNum.gtb (AcousticCalculator.energyCell c9cfg 1 1) (JNum.fin 0) = true :=
  ⟨by with_unfolding_all rfl, by norm_num, by with_unfolding_all rfl⟩

/-- C9 amended: overlay band energy is generated exactly for each segment
whose Lw is finite (of any sign): blue and green always, yellow when
`Lw >= yellowThreshold`, red when `Lw >= redThreshold` (both comparisons
non-strict); segments without a finite Lw contribute no overlay energy. -/
theorem c9_overlay_band_selection :
    (∀ (cfg : AcousticCalculator.ComputeCfg) (seg : Seg) (j i : ℕ),
      ((cfg.lw.lookup seg.name).getD JNum.nan).isFinite = false →
      AcousticCalculator.segOverlayContribution cfg seg j i = JNum.fin 0) ∧
    (∀ lw yT rT : ℚ,
      AcousticCalculator.bandsForSegment (JNum.fin lw) yT rT =
        [ColorBand.blue, ColorBand.green]
          ++ (if yT ≤ lw then [ColorBand.yellow] else [])
          ++ (if rT ≤ lw then [ColorBand.red] else [])) := by
  constructor
  · intro cfg seg j i h
    unfold AcousticCalculator.segOverlayContribution
    simp [h]
  · intro lw yT rT
    unfold AcousticCalculator.bandsForSegment
    congr 1
    · by_cases hy : yT ≤ lw <;> simp [JNum.geb, JNum.leb, hy]
    · by_cases hr : rT ≤ lw <;> simp [JNum.geb, JNum.leb, hr]

/-- Segment and configuration for the C9 witness (no Lw supplied). -/
def c9wseg : Seg := ⟨"segment-0", (0, 0), (1, 0)⟩

/-- Configuration for the C9 witness. -/
def c9wcfg : AcousticCalculator.ComputeCfg :=
  { areaSize := 2, resolution := 3, main := some [c9wseg], lw := [] }

/-- Witness for C9: a segment with no supplied Lw contributes zero overlay
energy, and Lw 60 with thresholds 50/70 selects blue, green, yellow. -/
theorem c9_overlay_band_selection_witness :
    AcousticCalculator.segOverlayContribution c9wcfg c9wseg 0 0 = JNum.fin 0 ∧
    AcousticCalculator.bandsForSegment (JNum.fin 60) 50 70
      = [ColorBand.blue, ColorBand.green, ColorBand.yellow] :=
  ⟨c9_overlay_band_selection.1 c9wcfg c9wseg 0 0 (by decide),
   by rw [c9_overlay_band_selection.2 60 50 70]; norm_num⟩

/-- A row with no finite entry leaves the min/max accumulator unchanged. -/
theorem minMaxStep_row_skip (row : List JNum) (p : JNum × JNum)
    (h : ∀ v ∈ row, v.isFinite = false) :
    row.foldl Heatmap.minMaxStep p = p := by
  induction row generalizing p with
  | nil => rfl
  | cons v t ih =>
      rw [List.foldl_cons]
      have hv : v.isFinite = false := h v (List.mem_cons_self v t)
      rw [Heatmap.minMaxStep, if_pos (by simp [hv])]
      exact ih p (fun x hx => h x (List.mem_cons_of_mem v hx))

/-- C7 amended: in the grid returned by `useHeatmap`, the min and max
fields are NaN whenever no finite cell exists in the z matrix (the
compositor `AcousticCalculator.compute` instead falls back to 0, see the
counterexample). -/
theorem c7_minmax_nan_when_no_finite (zmat : List (List JNum))
    (h : ∀ row ∈ zmat, ∀ v ∈ row, v.isFinite = false) :
    Heatmap.minMaxScan zmat = (JNum.nan, JNum.nan) := by
  unfold Heatmap.minMaxScan
  have hfold : zmat.foldl (fun (p : JNum × JNum) row => row.foldl Heatmap.minMaxStep p)
      (JNum.inf, JNum.ninf) = (JNum.inf, JNum.ninf) := by
    induction zmat with
    | nil => rfl
    | cons row t ih =>
        rw [List.foldl_cons]
        rw [minMaxStep_row_skip row _ (h row (List.mem_cons_self row t))]
        exact ih (fun r hr v hv => h r (List.mem_cons_of_mem row hr) v hv)
  rw [hfold]
  rfl

/-- Witness for C7 at the all-NaN single-row matrix. -/
theorem c7_minmax_nan_witness :
    Heatmap.minMaxScan [[JNum.nan, JNum.nan]] = (JNum.nan, JNum.nan) :=
  c7_minmax_nan_when_no_finite [[JNum.nan, JNum.nan]] (by decide)

/-- Concrete configuration for the C7 counterexample: no segments, no
perimeter, no supplied Lw — every output cell is `null`. -/
def c7cfg : AcousticCalculator.ComputeCfg := { areaSize := 2, resolution := 3 }

/-- C7 counterexample: the compositor's returned grid has no finite cell
(`z` is all `null`), yet its `min` and `max` are 0, not NaN — the
compositor falls back to 0 on an empty finite-cell list (part_010:445-446),
refuting the claim for `AcousticCalculator.compute`. -/
theorem c7_counterexample :
    ((AcousticCalculator.compute c7cfg).z.all fun row => row.all fun c => c = none) = true ∧
    (AcousticCalculator.compute c7cfg).min = JNum.fin 0 ∧
    (AcousticCalculator.compute c7cfg).max = JNum.fin 0 ∧
    (AcousticCalculator.compute c7cfg).min ≠ JNum.nan :=
  ⟨by with_unfolding_all rfl, by with_unfolding_all rfl, by with_unfolding_all rfl,
   by with_unfolding_all exact (fun h => JNum.noConfusion h)⟩

/-- C1 counterexample inputs: a small square perimeter lying inside the
central grid cell, four facade segments with 80 dB, blur disabled. -/
def c1poly : List (ℚ × ℚ) := [(-1/10, -1/10), (1/10, -1/10), (1/10, 1/10), (-1/10, 1/10)]

/-- The four facade segments of the C1 counterexample perimeter. -/
def c1segs : List ColorMap.RawSeg :=
  [⟨none, (-1/10, -1/10), (1/10, -1/10)⟩,
   ⟨none, (1/10, -1/10), (1/10, 1/10)⟩,
   ⟨none, (1/10, 1/10), (-1/10, 1/10)⟩,
   ⟨none, (-1/10, 1/10), (-1/10, -1/10)⟩]

/-- The sound-level map of the C1 counterexample. -/
def c1lw : List (String × JNum) :=
  [("segment-0", JNum.fin 80), ("segment-1", JNum.fin 80),
   ("segment-2", JNum.fin 80), ("segment-3", JNum.fin 80)]

/-- The options of the C1 counterexample (yellow blur disabled). -/
def c1opts : ColorMap.RedHeatmapOpts :=
  { sampleSpacing := some 1, outwardOffset := some (1/50), redMaxDist := some 2,
    yellowMaxDist := some 6, dbPerMeter := some (1/2), redWeight := some 1,
    yellowWeight := some 1, applyYellowBlur := some 0 }

/-- The grid axis of the C1 counterexample (cell centers -1, 0, 1). -/
def c1gridX : List ℚ := [-1, 0, 1]

/-- C1 counterexample: the grid cell centered at (0,0) has its center
strictly inside the perimeter polygon (the ray cast is true), yet
`generateRedHeatmapFromFacade` returns a finite dB value there, not
NaN/null: its mask tests cell corners, which all lie outside this small
polygon. -/
theorem c1_counterexample :
    rayCastLoop 0 0 c1poly = true ∧
    c1gridX.getD 1 0 = 0 ∧
    (((ColorMap.generateRedHeatmapFromFacade c1gridX c1gridX c1segs c1poly (some c1lw)
        c1opts).getD 1 []).getD 1 JNum.nan).isFinite = true :=
  ⟨by with_unfolding_all rfl, by with_unfolding_all rfl, by with_unfolding_all rfl⟩

/-- C1 amended: in the compositor `AcousticCalculator.compute`, every grid
cell whose center lies strictly inside the perimeter polygon (of at least
3 points) is `null` in the returned `z` matrix, regardless of the supplied
Lw values. -/
theorem c1_interior_null_in_compute (cfg : AcousticCalculator.ComputeCfg)
    (p : List (ℚ × ℚ)) (j i : ℕ)
    (hpoly : cfg.poly = some p) (hlen : 3 ≤ p.length)
    (hin : rayCastLoop ((AcousticCalculator.gridAxes cfg).getD i 0)
      ((AcousticCalculator.gridAxes cfg).getD j 0) p = true)
    (hj : j < AcousticCalculator.gridN cfg) (hi : i < AcousticCalculator.gridN cfg) :
    zAt (AcousticCalculator.compute cfg) j i = none := by
  have hbase : AcousticCalculator.baseCell cfg j i = JNum.nan := by
    simp only [AcousticCalculator.baseCell, hpoly]
    rw [if_pos hlen, hin]
    simp
  have hsm : AcousticCalculator.smoothedBase cfg j i = JNum.nan := by
    unfold AcousticCalculator.smoothedBase
    exact GaussianSmoother.apply_preserves_nan _ _ _ _ _ _ _
      (GaussianSmoother.apply_preserves_nan _ _ _ _ _ _ _ hbase)
  have hmask : AcousticCalculator.maskCell cfg j i = false := by
    simp only [AcousticCalculator.maskCell, hpoly]
    rw [if_pos (by omega : p.length ≠ 0)]
    unfold GradientFactory.pointInPolygon
    rw [if_neg (by omega)]
    rw [hin]
    rfl
  have hblend : AcousticCalculator.blendCell cfg j i = JNum.nan := by
    unfold AcousticCalculator.blendCell
    rw [hmask]
    simp [hsm]
  have hcap : AcousticCalculator.cappedCell cfg j i = JNum.nan := by
    unfold AcousticCalculator.cappedCell
    rw [hblend]
    cases h : AcousticCalculator.suppliedLwVals cfg <;> simp
  unfold zAt
  rw [AcousticCalculator.compute_z]
  unfold AcousticCalculator.zGrid
  simp only [List.getD_eq_getElem?_getD]
  rw [List.getElem?_map, List.getElem?_range hj]
  simp only [Option.map_some', Option.getD_some]
  rw [List.getElem?_map, List.getElem?_range hi]
  simp [hcap]

/-- Configuration for the C1 witness: a unit square perimeter centered in
a 3×3 grid. -/
def c1wcfg : AcousticCalculator.ComputeCfg :=
  { areaSize := 2, resolution := 3,
    poly := some [(-1/2, -1/2), (1/2, -1/2), (1/2, 1/2), (-1/2, 1/2)] }

/-- Witness for C1: the central cell of `c1wcfg` lies strictly inside its
square perimeter, so the compositor returns `null` there. -/
theorem c1_interior_null_in_compute_witness :
    zAt (AcousticCalculator.compute c1wcfg) 1 1 = none :=
  c1_interior_null_in_compute c1wcfg
    [(-1/2, -1/2), (1/2, -1/2), (1/2, 1/2), (-1/2, 1/2)] 1 1 rfl (by decide)
    (by with_unfolding_all rfl)
    (by
      have hn : AcousticCalculator.gridN c1wcfg = 3 := by with_unfolding_all rfl
      omega)
    (by
      have hn : AcousticCalculator.gridN c1wcfg = 3 := by with_unfolding_all rfl
      omega)

/-- The kernel tap sum is positive. -/
theorem kernelSum_pos (r : ℕ) (sigma : ℚ) : 0 < ColorMap.kernelSum r sigma := by
  unfold ColorMap.kernelSum
  apply foldl_add_pos (fun (k : ℕ) => ColorMap.kernelRaw sigma ((k : ℤ) - (r : ℤ)))
  · intro e _
    exact expQ_pos _
  · simp

/-- Every normalised kernel tap is positive. -/
theorem kernel_pos (r : ℕ) (sigma : ℚ) (o : ℤ) : 0 < ColorMap.kernel r sigma o :=
  div_pos (expQ_pos _) (kernelSum_pos r sigma)

/-- Conditionally accumulating non-negative terms never decreases the
accumulator. -/
theorem foldl_cond_add_le (l : List ℕ) (c : ℕ → Bool) (κ : ℕ → ℚ)
    (hκ : ∀ k ∈ l, 0 ≤ κ k) (a : ℚ) :
    a ≤ l.foldl (fun s k => if c k then s + κ k else s) a := by
  induction l generalizing a with
  | nil => simp
  | cons k t ih =>
      rw [List.foldl_cons]
      have h1 : a ≤ if c k then a + κ k else a := by
        split
        · have := hκ k (List.mem_cons_self k t)
          linarith
        · exact le_refl a
      exact le_trans h1 (ih (fun x hx => hκ x (List.mem_cons_of_mem k hx)) _)

/-- A conditional accumulation containing one allowed positive term is
positive. -/
theorem foldl_cond_add_pos (l : List ℕ) (c : ℕ → Bool) (κ : ℕ → ℚ)
    (hκ : ∀ k ∈ l, 0 ≤ κ k) (k0 : ℕ) (hk0 : k0 ∈ l) (hc : c k0 = true)
    (hκ0 : 0 < κ k0) (a : ℚ) (ha : 0 ≤ a) :
    0 < l.foldl (fun s k => if c k then s + κ k else s) a := by
  induction l generalizing a with
  | nil => cases hk0
  | cons k t ih =>
      rw [List.foldl_cons]
      rcases List.mem_cons.mp hk0 with heq | hmem
      · subst heq
        rw [if_pos hc]
        have hstart : 0 < a + κ k0 := by linarith
        exact lt_of_lt_of_le hstart
          (foldl_cond_add_le t c κ (fun x hx => hκ x (List.mem_cons_of_mem k0 hx)) _)
      · have hstart : (0 : ℚ) ≤ if c k then a + κ k else a := by
          split
          · have := hκ k (List.mem_cons_self k t)
            linarith
          · exact ha
        exact ih (fun x hx => hκ x (List.mem_cons_of_mem k hx)) hmem _ hstart

/-- An unconditional accumulation of non-negative terms containing one
positive term is positive. -/
theorem foldl_add_pos_mem {α : Type} [DecidableEq α] (l : List α) (f : α → ℚ)
    (hf : ∀ k ∈ l, 0 ≤ f k) (k0 : α) (hk0 : k0 ∈ l) (hf0 : 0 < f k0)
    (a : ℚ) (ha : 0 ≤ a) :
    0 < l.foldl (fun s k => s + f k) a := by
  induction l generalizing a with
  | nil => cases hk0
  | cons k t ih =>
      rw [List.foldl_cons]
      rcases List.mem_cons.mp hk0 with heq | hmem
      · subst heq
        have hstart : 0 < a + f k0 := by linarith
        exact lt_of_lt_of_le hstart
          (foldl_add_le f t _ (fun x hx => hf x (List.mem_cons_of_mem k0 hx)))
      · have hstart : (0 : ℚ) ≤ a + f k := by
          have := hf k (List.mem_cons_self k t)
          linarith
        exact ih (fun x hx => hf x (List.mem_cons_of_mem k hx)) hmem _ hstart

/-- Clamping an in-range index is the identity. -/
theorem clampIdx_self (n x : ℕ) (hx : x < n) : clampIdx n (x : ℤ) = x := by
  unfold clampIdx
  have h1 : Max.max (0 : ℤ) (x : ℤ) = (x : ℤ) := max_eq_right (by positivity)
  rw [h1]
  have h2 : Min.min ((n : ℤ) - 1) (x : ℤ) = (x : ℤ) := min_eq_right (by omega)
  rw [h2]
  omega

/-- The valid-weight total of one masked horizontal pass. -/
def hWeightM (mask : ℕ → ℕ → Bool) (w r : ℕ) (sigma : ℚ) (y x : ℕ) : ℚ :=
  (List.range (2 * r + 1)).foldl
    (fun s (k : ℕ) =>
      if mask y (clampIdx w ((x : ℤ) + ((k : ℤ) - (r : ℤ))))
      then s + ColorMap.kernel r sigma ((k : ℤ) - (r : ℤ)) else s) 0

/-- On a grid that is `C` at every masked-true cell, the horizontal pass
accumulates `C` times the valid weight. -/
theorem hPass_fold_const (l : List ℕ) (g : MatFun) (mask : ℕ → ℕ → Bool)
    (w r : ℕ) (sigma : ℚ) (C : ℚ) (y x : ℕ)
    (hallow : ∀ y' sx, mask y' sx = true → g y' sx = JNum.fin C)
    (a b : ℚ) (hab : a = C * b) :
    l.foldl (ColorMap.hPassStep g mask false ColorMap.MaskMode.both w r sigma y x)
      (JNum.fin a, b) =
    (JNum.fin (C * l.foldl
        (fun s (k : ℕ) =>
          if mask y (clampIdx w ((x : ℤ) + ((k : ℤ) - (r : ℤ))))
          then s + ColorMap.kernel r sigma ((k : ℤ) - (r : ℤ)) else s) b),
     l.foldl
        (fun s (k : ℕ) =>
          if mask y (clampIdx w ((x : ℤ) + ((k : ℤ) - (r : ℤ))))
          then s + ColorMap.kernel r sigma ((k : ℤ) - (r : ℤ)) else s) b) := by
  induction l generalizing a b with
  | nil => simp [hab]
  | cons k t ih =>
      simp only [List.foldl_cons]
      have hstep : ColorMap.hPassStep g mask false ColorMap.MaskMode.both w r sigma y x
          (JNum.fin a, b) k =
          (if mask y (clampIdx w ((x : ℤ) + ((k : ℤ) - (r : ℤ))))
           then (JNum.fin (a + C * ColorMap.kernel r sigma ((k : ℤ) - (r : ℤ))),
                 b + ColorMap.kernel r sigma ((k : ℤ) - (r : ℤ)))
           else (JNum.fin a, b)) := by
        unfold ColorMap.hPassStep ColorMap.srcAllowedAt
        cases hm : mask y (clampIdx w ((x : ℤ) + ((k : ℤ) - (r : ℤ)))) with
        | false => simp [hm]
        | true => simp [hm, hallow _ _ hm, mul_comm]
      rw [hstep]
      cases hm : mask y (clampIdx w ((x : ℤ) + ((k : ℤ) - (r : ℤ)))) with
      | false => exact ih a b hab
      | true => exact ih _ _ (by rw [hab]; ring)

/-- The masked horizontal pass on such a grid is `(C · W, W)` with `W` the
valid weight. -/
theorem hPassM_const (g : MatFun) (mask : ℕ → ℕ → Bool) (w r : ℕ) (sigma : ℚ)
    (C : ℚ) (hallow : ∀ y' sx, mask y' sx = true → g y' sx = JNum.fin C) (y x : ℕ) :
    ColorMap.hPassM g mask false ColorMap.MaskMode.both w r sigma y x =
      (JNum.fin (C * hWeightM mask w r sigma y x), hWeightM mask w r sigma y x) := by
  unfold ColorMap.hPassM hWeightM
  exact hPass_fold_const _ g mask w r sigma C y x hallow 0 0 (by ring)

/-- On horizontal passes of the shape `(C · W, W)`, the vertical pass
accumulates `C` times the combined weight. -/
theorem vPass_fold_const (l : List ℕ) (hp : ℕ → ℕ → JNum × ℚ) (W : ℕ → ℕ → ℚ)
    (h r : ℕ) (sigma : ℚ) (x y : ℕ) (C : ℚ)
    (hhp : ∀ y' x', hp y' x' = (JNum.fin (C * W y' x'), W y' x'))
    (a b : ℚ) (hab : a = C * b) :
    l.foldl (ColorMap.vPassStep hp h r sigma x y) (JNum.fin a, b) =
      (JNum.fin (C * l.foldl
          (fun s (k : ℕ) => s + W (clampIdx h ((y : ℤ) + ((k : ℤ) - (r : ℤ)))) x
            * ColorMap.kernel r sigma ((k : ℤ) - (r : ℤ))) b),
       l.foldl
          (fun s (k : ℕ) => s + W (clampIdx h ((y : ℤ) + ((k : ℤ) - (r : ℤ)))) x
            * ColorMap.kernel r sigma ((k : ℤ) - (r : ℤ))) b) := by
  induction l generalizing a b with
  | nil => simp [hab]
  | cons k t ih =>
      simp only [List.foldl_cons]
      have hstep : ColorMap.vPassStep hp h r sigma x y (JNum.fin a, b) k =
          (JNum.fin (a + C * W (clampIdx h ((y : ℤ) + ((k : ℤ) - (r : ℤ)))) x
              * ColorMap.kernel r sigma ((k : ℤ) - (r : ℤ))),
           b + W (clampIdx h ((y : ℤ) + ((k : ℤ) - (r : ℤ)))) x
              * ColorMap.kernel r sigma ((k : ℤ) - (r : ℤ))) := by
        unfold ColorMap.vPassStep
        simp [hhp]
      rw [hstep]
      rw [ih _ _ (by rw [hab]; ring)]

/-- The valid weight of a pass is non-negative. -/
theorem hWeightM_nonneg (mask : ℕ → ℕ → Bool) (w r : ℕ) (sigma : ℚ) (y x : ℕ) :
    0 ≤ hWeightM mask w r sigma y x :=
  foldl_cond_add_le _ _ _ (fun _ _ => le_of_lt (kernel_pos r sigma _)) 0

/-- The valid weight is positive at an allowed in-range cell (its own
center tap always counts). -/
theorem hWeightM_pos (mask : ℕ → ℕ → Bool) (w r : ℕ) (sigma : ℚ) (y x : ℕ)
    (hx : x < w) (hm : mask y x = true) : 0 < hWeightM mask w r sigma y x := by
  unfold hWeightM
  apply foldl_cond_add_pos _ _ _ (fun k _ => le_of_lt (kernel_pos r sigma _)) r
    (List.mem_range.mpr (by omega)) _ (kernel_pos r sigma _) 0 (le_refl 0)
  have hzero : ((x : ℤ) + ((r : ℤ) - (r : ℤ))) = (x : ℤ) := by ring
  rw [hzero, clampIdx_self w x hx, hm]

/-- C5 amended: `gaussianBlurMatrixMasked`, driven by the finiteness mask
in `'both'` mode, is mask-neutral — every finite cell of a grid whose
finite cells all equal `C` smooths to exactly `C` (non-finite neighbours
contribute neither value nor weight), and every non-finite cell keeps its
original value.  (`gaussianBlurMatrix` itself spreads NaN into its
neighbourhood, see the counterexample.) -/
theorem gaussianBlurMatrixMasked_cell (src : MatFun) (h w : ℕ) (radius : ℚ)
    (mask : ℕ → ℕ → Bool) (invert : Bool) (mode : ColorMap.MaskMode) (y x : ℕ)
    (hc : ¬(radius ≤ 0 ∨ h = 0 ∨ w = 0)) :
    ColorMap.gaussianBlurMatrixMasked src h w radius mask invert mode y x =
      if (!ColorMap.destAllowedAt mask invert mode y x) = true
          ∧ (mode = ColorMap.MaskMode.receive ∨ mode = ColorMap.MaskMode.both)
      then src y x
      else
        if 0 < ((List.range (2 * ceilQ radius + 1)).foldl
            (ColorMap.vPassStep
              (ColorMap.hPassM src mask invert mode w (ceilQ radius)
                (Max.max (1 / 100) (radius / 2)))
              h (ceilQ radius) (Max.max (1 / 100) (radius / 2)) x y)
            (JNum.fin 0, 0)).2
        then JNum.div
          ((List.range (2 * ceilQ radius + 1)).foldl
            (ColorMap.vPassStep
              (ColorMap.hPassM src mask invert mode w (ceilQ radius)
                (Max.max (1 / 100) (radius / 2)))
              h (ceilQ radius) (Max.max (1 / 100) (radius / 2)) x y)
            (JNum.fin 0, 0)).1
          (JNum.fin ((List.range (2 * ceilQ radius + 1)).foldl
            (ColorMap.vPassStep
              (ColorMap.hPassM src mask invert mode w (ceilQ radius)
                (Max.max (1 / 100) (radius / 2)))
              h (ceilQ radius) (Max.max (1 / 100) (radius / 2)) x y)
            (JNum.fin 0, 0)).2)
        else src y x := by
  unfold ColorMap.gaussianBlurMatrixMasked
  rw [if_neg hc]

/-- C5 amended (statement): see the doc comment on the claim theorem. -/
theorem c5_masked_blur_neutral (g : MatFun) (h w : ℕ) (radius C : ℚ)
    (mask : ℕ → ℕ → Bool)
    (hmask : ∀ y x, mask y x = (g y x).isFinite)
    (hval : ∀ y x, (g y x).isFinite = true → g y x = JNum.fin C)
    (y x : ℕ) (hy : y < h) (hx : x < w) :
    ColorMap.gaussianBlurMatrixMasked g h w radius mask false ColorMap.MaskMode.both y x
      = (if (g y x).isFinite then JNum.fin C else g y x) := by
  by_cases hc : radius ≤ 0 ∨ h = 0 ∨ w = 0
  · unfold ColorMap.gaussianBlurMatrixMasked
    rw [if_pos hc]
    by_cases hf : (g y x).isFinite
    · rw [if_pos hf]
      exact hval y x hf
    · rw [if_neg hf]
  · rw [gaussianBlurMatrixMasked_cell g h w radius mask false ColorMap.MaskMode.both y x hc]
    by_cases hf : (g y x).isFinite = true
    · rw [if_pos hf]
      have hdest : ColorMap.destAllowedAt mask false ColorMap.MaskMode.both y x = true := by
        unfold ColorMap.destAllowedAt
        simp [hmask y x, hf]
      rw [if_neg (by simp [hdest])]
      have hallow : ∀ y' sx, mask y' sx = true → g y' sx = JNum.fin C := by
        intro y' sx hm
        exact hval y' sx (by rw [← hmask]; exact hm)
      have hhp := hPassM_const g mask w (ceilQ radius) (Max.max (1 / 100) (radius / 2)) C hallow
      rw [vPass_fold_const _ _ _ h (ceilQ radius) (Max.max (1 / 100) (radius / 2)) x y C hhp
        0 0 (by ring)]
      set r := ceilQ radius with hr
      set sigma := Max.max (1 / 100) (radius / 2) with hsigma
      set WV := (List.range (2 * r + 1)).foldl
        (fun s (k : ℕ) => s + hWeightM mask w r sigma (clampIdx h ((y : ℤ) + ((k : ℤ) - (r : ℤ)))) x
          * ColorMap.kernel r sigma ((k : ℤ) - (r : ℤ))) 0 with hWV
      have hWVpos : 0 < WV := by
        rw [hWV]
        apply foldl_add_pos_mem _
          (fun (k : ℕ) => hWeightM mask w r sigma (clampIdx h ((y : ℤ) + ((k : ℤ) - (r : ℤ)))) x
            * ColorMap.kernel r sigma ((k : ℤ) - (r : ℤ)))
          (fun k _ => mul_nonneg (hWeightM_nonneg _ _ _ _ _ _) (le_of_lt (kernel_pos _ _ _)))
          r (List.mem_range.mpr (by omega)) ?_ 0 (le_refl 0)
        show 0 < hWeightM mask w r sigma (clampIdx h ((y : ℤ) + ((r : ℤ) - (r : ℤ)))) x
          * ColorMap.kernel r sigma ((r : ℤ) - (r : ℤ))
        have hzero : ((y : ℤ) + ((r : ℤ) - (r : ℤ))) = (y : ℤ) := by ring
        rw [hzero, clampIdx_self h y hy]
        exact mul_pos (hWeightM_pos mask w r sigma y x hx (by rw [hmask y x]; exact hf))
          (kernel_pos _ _ _)
      rw [show ((JNum.fin (C * WV), WV)).2 = WV from rfl,
        show ((JNum.fin (C * WV), WV)).1 = JNum.fin (C * WV) from rfl]
      rw [if_pos hWVpos]
      rw [JNum.isFinite_div_fin_fin _ _ (ne_of_gt hWVpos)]
      rw [mul_div_assoc, div_self (ne_of_gt hWVpos), mul_one]
    · rw [if_neg hf]
      have hdest : ColorMap.destAllowedAt mask false ColorMap.MaskMode.both y x = false := by
        unfold ColorMap.destAllowedAt
        simp [hmask y x, hf]
      rw [if_pos (by simp [hdest])]

/-- The C5 grid: constant 5 with a NaN-masked center cell. -/
def c5grid : MatFun := fun j i => if j = 1 ∧ i = 1 then JNum.nan else JNum.fin 5

/-- The finiteness mask of `c5grid`. -/
def c5mask : ℕ → ℕ → Bool := fun j i => (c5grid j i).isFinite

/-- C5 counterexample: `gaussianBlurMatrix` (one of the claim's cited
filters) is not mask-aware — blurring the constant-5 grid with a NaN
center at kernel size 5 (radius 2) turns the valid neighbour (0,1) into
NaN instead of leaving it exactly 5. -/
theorem c5_counterexample :
    c5grid 0 1 = JNum.fin 5 ∧
    ColorMap.gaussianBlurMatrix c5grid 3 3 2 0 1 = JNum.nan :=
  ⟨by with_unfolding_all rfl, by with_unfolding_all rfl⟩

/-- Witness for C5: on the same grid, the masked variant in `'both'` mode
with the finiteness mask keeps the valid cell (0,1) at exactly 5 and the
masked center NaN. -/
theorem c5_masked_blur_neutral_witness :
    ColorMap.gaussianBlurMatrixMasked c5grid 3 3 2 c5mask false ColorMap.MaskMode.both 0 1
      = JNum.fin 5 ∧
    ColorMap.gaussianBlurMatrixMasked c5grid 3 3 2 c5mask false ColorMap.MaskMode.both 1 1
      = JNum.nan := by
  have hval : ∀ y x, (c5grid y x).isFinite = true → c5grid y x = JNum.fin 5 := by
    intro y x hfin
    by_cases hc : y = 1 ∧ x = 1
    · rw [c5grid, if_pos hc] at hfin
      cases hfin
    · rw [c5grid, if_neg hc]
  constructor
  · rw [c5_masked_blur_neutral c5grid 3 3 2 5 c5mask (fun y x => rfl) hval 0 1
      (by omega) (by omega)]
    rw [if_pos (by rw [c5grid]; decide)]
  · rw [c5_masked_blur_neutral c5grid 3 3 2 5 c5mask (fun y x => rfl) hval 1 1
      (by omega) (by omega)]
    rw [if_neg (by rw [c5grid]; decide)]
    rw [c5grid]
    decide
